import Mathlib

/-!
Shallow embedding of the Falconer policy-guarded spend core and the funding
proposal lifecycle, translated from the Python sources:

  * `src/falconer/policy/schema.py` and `src/falconer/policy/engine.py`
    (Policy, TransactionRequest, PolicyViolation, DailySpend, PolicyEngine);
  * `src/falconer/persistence.py` (PersistenceManager);
  * `src/falconer/funding/schema.py` and `src/falconer/funding/manager.py`
    (FundingProposal, FundingProposalManager);
  * `src/falconer/funding/n8n_adapter.py` (webhook signature verification,
    with SHA-256 and HMAC implemented concretely over byte lists).

Machine integers are modelled as `Nat`/`Int` (sats amounts are non-negative
per the pydantic validators `gt=0`/`ge=0`; timestamps are epoch seconds as
`Int`).  Python `datetime` values appear only through `datetime.utcnow()`,
which the embedding passes in as an explicit `today : String` (calendar date
`YYYY-MM-DD`) or `now : Int` parameter.  Fallible code returns
`Except`/`Option`.  Log calls (`logger.*`) have no observable effect on the
state of interest and are omitted.
-/

namespace Falconer

/-- From `policy/schema.py`, class `Policy`: spending policy configuration.
`max_fee_rate_sats_per_vbyte : Optional[int]` becomes `Option Nat`. -/
structure Policy where
  max_daily_spend_sats : Nat
  max_single_tx_sats : Nat
  allowed_destinations : List String
  max_fee_rate_sats_per_vbyte : Option Nat
  require_confirmation : Bool
deriving Repr, DecidableEq

/-- From `policy/schema.py`, class `TransactionRequest`.  `created_at`
(a `datetime`, `default_factory=datetime.utcnow`) is epoch seconds. -/
structure TransactionRequest where
  destination : String
  amount_sats : Nat
  fee_rate_sats_per_vbyte : Option Nat
  description : Option String
  created_at : Int
deriving Repr, DecidableEq

/-- From `policy/schema.py`, class `PolicyViolation`.  The `timestamp`
field (wall-clock default) is not modelled: no claim observes it. -/
structure PolicyViolation where
  violation_type : String
  message : String
  transaction_request : TransactionRequest
  severity : String
deriving Repr, DecidableEq

/-- From `policy/schema.py`, class `DailySpend`: per-date spend record. -/
structure DailySpend where
  date : String
  total_spent_sats : Nat
  transaction_count : Nat
deriving Repr, DecidableEq

/-- From `persistence.py`, `save_transaction` (lines 130-139): the record
appended to `transaction_history.json`.  The wall-clock `timestamp` string
is not modelled. -/
structure TxRecord where
  destination : String
  amount_sats : Nat
  fee_rate_sats_per_vbyte : Option Nat
  description : Option String
  txid : Option String
  status : String
deriving Repr, DecidableEq

/-- The in-memory view of the `PersistenceManager`'s three policy-side
collections, i.e. the parsed content of `daily_spends.json` (a dict keyed
by date string), `policy_violations.json` and `transaction_history.json`.
The file layer itself (`_load_json` / `_save_json` and their failure
behaviour) is embedded separately below as `FileState`. -/
structure PersistenceState where
  daily_spends : List (String × DailySpend)
  violations : List PolicyViolation
  history : List TxRecord
deriving Repr, DecidableEq

/-- Dictionary lookup in the `daily_spends` mapping (Python `dict` keyed by
`YYYY-MM-DD` date string): first entry with the given key. -/
def lookupDaily (m : List (String × DailySpend)) (d : String) : Option DailySpend :=
  (m.find? (fun kv => kv.1 == d)).map (fun kv => kv.2)

/-- Dictionary update `daily_spends[date] = record` (replace the existing
key in place, else append; Python dicts keep insertion order). -/
def insertDaily (m : List (String × DailySpend)) (d : String) (v : DailySpend) :
    List (String × DailySpend) :=
  match m with
  | [] => [(d, v)]
  | kv :: rest => if kv.1 == d then (d, v) :: rest else kv :: insertDaily rest d v

/-- From `persistence.py`, `load_daily_spend` (lines 67-84), on the parsed
in-memory dict: returns the record for the date or `None`. -/
def PersistenceState.load_daily_spend (st : PersistenceState) (date_str : String) :
    Option DailySpend :=
  lookupDaily st.daily_spends date_str

/-- From `persistence.py`, `save_daily_spend` (lines 39-65), on the parsed
in-memory dict: `daily_spends[daily_spend.date] = daily_spend.model_dump()`. -/
def PersistenceState.save_daily_spend (st : PersistenceState) (ds : DailySpend) :
    PersistenceState :=
  { st with daily_spends := insertDaily st.daily_spends ds.date ds }

/-- From `persistence.py`, `save_policy_violation` (lines 176-211): append
to the violation log and keep only the last 500 entries
(`violations[-500:]`). -/
def PersistenceState.save_policy_violation (st : PersistenceState) (v : PolicyViolation) :
    PersistenceState :=
  let vs := st.violations ++ [v]
  let vs := if vs.length > 500 then vs.drop (vs.length - 500) else vs
  { st with violations := vs }

/-- From `persistence.py`, `save_transaction` (lines 113-157): append the
transaction record to the history and keep only the last 1000 entries. -/
def PersistenceState.save_transaction (st : PersistenceState)
    (r : TransactionRequest) (txid : Option String) : PersistenceState :=
  let rec_ : TxRecord :=
    { destination := r.destination
      amount_sats := r.amount_sats
      fee_rate_sats_per_vbyte := r.fee_rate_sats_per_vbyte
      description := r.description
      txid := txid
      status := if txid.isSome then "completed" else "pending" }
  let h := st.history ++ [rec_]
  let h := if h.length > 1000 then h.drop (h.length - 1000) else h
  { st with history := h }

/-- From `policy/engine.py`, class `PolicyEngine` (lines 12-24): the policy,
an optional persistence manager, and the in-memory fallback list
`self.daily_spends`. -/
structure PolicyEngine where
  policy : Policy
  persistence : Option PersistenceState
  daily_spends : List DailySpend
deriving Repr, DecidableEq

/-- From `policy/engine.py`, `_get_daily_spend` (lines 161-180): total spent
for a date, from persistence when available, else from the in-memory list;
0 when no record exists. -/
def PolicyEngine.get_daily_spend (e : PolicyEngine) (date_str : String) : Nat :=
  match e.persistence with
  | some st =>
      match st.load_daily_spend date_str with
      | some ds => ds.total_spent_sats
      | none => 0
  | none =>
      match e.daily_spends.find? (fun s => s.date == date_str) with
      | some s => s.total_spent_sats
      | none => 0

/-- `if self.persistence: self.persistence.save_policy_violation(...)` —
the guarded persistence write used by the first three checks of
`validate_transaction`. -/
def PolicyEngine.logViolationGuarded (e : PolicyEngine) (v : PolicyViolation) :
    PolicyEngine :=
  { e with persistence := e.persistence.map (fun st => st.save_policy_violation v) }

/-- Python truthiness of an `Optional[int]`: `None` and `0` are falsy. -/
def optTruthy : Option Nat → Bool
  | none => false
  | some n => n != 0

/-- From `policy/engine.py`, `validate_transaction` (lines 26-103).  The
four checks run in source order (amount, daily, destination, fee-rate),
each appending its violation and, for the first three, persisting it only
when a persistence manager is present.  The fee-rate branch (line 101)
calls `self.persistence.save_policy_violation(violation.dict())` without
the `if self.persistence:` guard the other branches have; when
`persistence` is `None` this raises `AttributeError`, modelled as
`Except.error`.  `today` is `datetime.utcnow().date()` as `YYYY-MM-DD`. -/
def PolicyEngine.validate_transaction (e : PolicyEngine) (today : String)
    (request : TransactionRequest) :
    Except String (List PolicyViolation × PolicyEngine) :=
  -- Check single transaction limit
  let (vs, e) :=
    if request.amount_sats > e.policy.max_single_tx_sats then
      let v : PolicyViolation :=
        { violation_type := "amount_limit_exceeded"
          message := "Transaction amount " ++ toString request.amount_sats ++
            " sats exceeds single transaction limit of " ++
            toString e.policy.max_single_tx_sats ++ " sats"
          transaction_request := request
          severity := "error" }
      (([v] : List PolicyViolation), e.logViolationGuarded v)
    else ([], e)
  -- Check daily spending limit
  let today_spent := e.get_daily_spend today
  let (vs, e) :=
    if today_spent + request.amount_sats > e.policy.max_daily_spend_sats then
      let v : PolicyViolation :=
        { violation_type := "daily_limit_exceeded"
          message := "Transaction would exceed daily spending limit. Today: " ++
            toString today_spent ++ " sats, Request: " ++
            toString request.amount_sats ++ " sats, Limit: " ++
            toString e.policy.max_daily_spend_sats ++ " sats"
          transaction_request := request
          severity := "error" }
      (vs ++ [v], e.logViolationGuarded v)
    else (vs, e)
  -- Check allowed destinations (`if self.policy.allowed_destinations and
  -- request.destination not in self.policy.allowed_destinations`; an empty
  -- list is falsy)
  let (vs, e) :=
    if !e.policy.allowed_destinations.isEmpty &&
        !e.policy.allowed_destinations.contains request.destination then
      let v : PolicyViolation :=
        { violation_type := "destination_not_allowed"
          message := "Destination " ++ request.destination ++
            " is not in the allowed destinations list"
          transaction_request := request
          severity := "error" }
      (vs ++ [v], e.logViolationGuarded v)
    else (vs, e)
  -- Check fee rate limit (`if self.policy.max_fee_rate_sats_per_vbyte and
  -- request.fee_rate_sats_per_vbyte and request... > policy...`; a cap or
  -- fee rate of 0 is falsy and skips the check)
  if optTruthy e.policy.max_fee_rate_sats_per_vbyte &&
      optTruthy request.fee_rate_sats_per_vbyte &&
      ((request.fee_rate_sats_per_vbyte.getD 0) >
        (e.policy.max_fee_rate_sats_per_vbyte.getD 0) : Bool) then
    let v : PolicyViolation :=
      { violation_type := "fee_rate_exceeded"
        message := "Fee rate " ++ toString (request.fee_rate_sats_per_vbyte.getD 0) ++
          " sats/vbyte exceeds limit of " ++
          toString (e.policy.max_fee_rate_sats_per_vbyte.getD 0) ++ " sats/vbyte"
        transaction_request := request
        severity := "warning" }
    -- line 101: unguarded `self.persistence.save_policy_violation(...)`
    match e.persistence with
    | none =>
        Except.error "AttributeError: NoneType object has no attribute save_policy_violation"
    | some st =>
        Except.ok (vs ++ [v], { e with persistence := some (st.save_policy_violation v) })
  else
    Except.ok (vs, e)

/-- From `policy/engine.py`, `record_transaction` (lines 105-159): load (or
lazily create) today's `DailySpend`, increment its total and count, save it
back, and append the transaction to the history; without a persistence
manager, the in-memory list is updated instead. -/
def PolicyEngine.record_transaction (e : PolicyEngine) (today : String)
    (request : TransactionRequest) (txid : Option String) : PolicyEngine :=
  match e.persistence with
  | some st =>
      let ds :=
        match st.load_daily_spend today with
        | some d => d
        | none => { date := today, total_spent_sats := 0, transaction_count := 0 }
      let ds := { ds with
        total_spent_sats := ds.total_spent_sats + request.amount_sats
        transaction_count := ds.transaction_count + 1 }
      let st := st.save_daily_spend ds
      let st := st.save_transaction request txid
      { e with persistence := some st }
  | none =>
      match e.daily_spends.find? (fun s => s.date == today) with
      | some _ =>
          { e with daily_spends := e.daily_spends.map (fun s =>
              if s.date == today then
                { s with total_spent_sats := s.total_spent_sats + request.amount_sats
                         transaction_count := s.transaction_count + 1 }
              else s) }
      | none =>
          { e with daily_spends := e.daily_spends ++
              [{ date := today, total_spent_sats := request.amount_sats,
                 transaction_count := 1 }] }

/-- From `policy/engine.py`, `is_transaction_allowed` (lines 202-212),
restricted to the non-raising executions of `validate_transaction`. -/
def PolicyEngine.is_transaction_allowed (e : PolicyEngine) (today : String)
    (request : TransactionRequest) : Except String Bool :=
  (e.validate_transaction today request).map (fun vr => vr.1.isEmpty)

/-! ### The file layer of `persistence.py`

`FileState` models the on-disk condition of one JSON file: missing,
present but corrupted/unparseable, or present with parseable content. -/

/-- The on-disk state of one JSON data file. -/
inductive FileState (α : Type) where
  | absent : FileState α
  | corrupt : FileState α
  | content : α → FileState α
deriving Repr, DecidableEq

/-- From `persistence.py`, `_load_json` (lines 238-260): a missing file
returns the default; a `json.JSONDecodeError`/`IOError` (corrupted or
unparseable data) is caught, a warning is logged, and the default is
returned.  (`return default or {}`: for the dict-shaped collections the
default is the empty dict, which Python's falsy-`or` maps to itself.) -/
def load_json {α : Type} (fs : FileState α) (default : α) : α :=
  match fs with
  | .absent => default
  | .corrupt => default
  | .content d => d

/-- From `persistence.py`, `_save_json` (lines 262-294): the target is
renamed to a backup and the new data written; if the write fails the
backup is restored (prior content remains intact) and the exception
propagates.  `writeOk` models whether the underlying write succeeds. -/
def save_json {α : Type} (fs : FileState α) (data : α) (writeOk : Bool) :
    Except String Unit × FileState α :=
  if writeOk then (Except.ok (), FileState.content data)
  else (Except.error "write failed", fs)

/-- From `persistence.py`, `_load_daily_spends` (lines 230-236):
`self._load_json(self.daily_spends_file, {})`. -/
def load_daily_spends_file (fs : FileState (List (String × DailySpend))) :
    List (String × DailySpend) :=
  load_json fs []

/-- From `persistence.py`, `load_daily_spend` (lines 67-84) at the file
level: look the date up in the loaded dict; any exception is caught and
`None` returned, so the return type has no error channel at all. -/
def load_daily_spend_file (fs : FileState (List (String × DailySpend)))
    (date_str : String) : Option DailySpend :=
  lookupDaily (load_daily_spends_file fs) date_str

/-- From `persistence.py`, `save_daily_spend` (lines 39-65) at the file
level: load the dict, update the date's entry, save the file; a save
failure is logged and re-raised (`raise`), so it propagates. -/
def save_daily_spend_file (fs : FileState (List (String × DailySpend)))
    (ds : DailySpend) (writeOk : Bool) :
    Except String Unit × FileState (List (String × DailySpend)) :=
  let m := load_daily_spends_file fs
  save_json fs (insertDaily m ds.date ds) writeOk

/-! ### The funding proposal manager (`funding/schema.py`, `funding/manager.py`)

Datetimes (`created_at`, `approved_at`, ...) are epoch seconds as `Int`.
The proposal store models the parsed content of `funding_proposals.json`:
a dict keyed by `proposal_id`, kept as a list in insertion order. -/

/-- From `funding/schema.py`, class `FundingProposal`. -/
structure FundingProposal where
  proposal_id : String
  created_at : Int
  status : String
  requested_amount_sats : Nat
  current_balance_sats : Nat
  justification : String
  intended_use : String
  expected_roi_sats : Nat
  risk_assessment : String
  strategies_to_execute : List String
  time_horizon_days : Nat
  approved_at : Option Int
  approved_by : Option String
  rejected_at : Option Int
  rejected_by : Option String
  approval_notes : Option String
  executed_at : Option Int
  execution_txid : Option String
  n8n_workflow_id : Option String
deriving Repr, DecidableEq

/-- The proposal table: the values of the `funding_proposals.json` dict in
insertion order.  Dict semantics require the keys (`proposal_id`) to be
distinct; theorems that depend on it take that `Nodup` as a hypothesis. -/
abbrev ProposalStore := List FundingProposal

/-- Dict lookup `proposals.get(proposal_id)` — from `persistence.py`,
`load_funding_proposal` (lines 354-381). -/
def lookupProposal (store : ProposalStore) (id : String) : Option FundingProposal :=
  store.find? (fun p => p.proposal_id == id)

/-- Dict update `proposals[proposal.proposal_id] = proposal.model_dump()` —
from `persistence.py`, `save_funding_proposal` (lines 319-352): replace the
entry with the same key in place, else append (insertion order kept). -/
def saveProposal (store : ProposalStore) (p : FundingProposal) : ProposalStore :=
  match store with
  | [] => [p]
  | q :: rest =>
      if q.proposal_id == p.proposal_id then p :: rest else q :: saveProposal rest p

/-- Sort key of `persistence.py` line 409: `sort(key=lambda p: p.created_at,
reverse=True)` — newest first. -/
def createdDesc (p q : FundingProposal) : Prop := q.created_at ≤ p.created_at

instance : DecidableRel createdDesc := fun p q => Int.decLe q.created_at p.created_at

/-- From `persistence.py`, `load_funding_proposals` (lines 383-416): filter
the dict's values by status, sort by `created_at` descending (Python's
stable sort), and truncate to the first `limit` entries (default 100). -/
def load_funding_proposals (store : ProposalStore) (status : Option String)
    (limit : Nat) : List FundingProposal :=
  ((store.filter (fun p =>
      match status with
      | none => true
      | some s => p.status == s)).insertionSort createdDesc).take limit

/-- The error taxonomy of the manager's lifecycle methods.  The source
raises `ValueError` in both cases, distinguished by message
(`"... not found"` versus `"... is not in pending status (current: ...)"`
/ `"... is not approved (current: ...)"`). -/
inductive FundingError where
  | notFound (id : String) : FundingError
  | invalidState (id : String) (current : String) : FundingError
deriving Repr, DecidableEq

/-- From `funding/manager.py`, `approve_proposal` (lines 102-120): absent
proposal or status other than `pending` raises before any mutation, so the
store is returned unchanged; otherwise the proposal transitions to
`approved`, stamps `approved_at`/`approved_by`, stores the notes only when
truthy (`if notes:` — `None` and the empty string are falsy), and is saved. -/
def approve_proposal (store : ProposalStore) (id : String) (approved_by : String)
    (notes : Option String) (now : Int) :
    Except FundingError FundingProposal × ProposalStore :=
  match lookupProposal store id with
  | none => (Except.error (.notFound id), store)
  | some p =>
      if p.status ≠ "pending" then
        (Except.error (.invalidState id p.status), store)
      else
        let p := { p with
          status := "approved"
          approved_at := some now
          approved_by := some approved_by }
        let p := match notes with
          | some s => if s ≠ "" then { p with approval_notes := some s } else p
          | none => p
        (Except.ok p, saveProposal store p)

/-- From `funding/manager.py`, `reject_proposal` (lines 122-137): same
preconditions as approve; transitions to `rejected`, stamps
`rejected_at`/`rejected_by` and stores the reason in `approval_notes`. -/
def reject_proposal (store : ProposalStore) (id : String) (rejected_by : String)
    (reason : String) (now : Int) :
    Except FundingError FundingProposal × ProposalStore :=
  match lookupProposal store id with
  | none => (Except.error (.notFound id), store)
  | some p =>
      if p.status ≠ "pending" then
        (Except.error (.invalidState id p.status), store)
      else
        let p := { p with
          status := "rejected"
          rejected_at := some now
          rejected_by := some rejected_by
          approval_notes := some reason }
        (Except.ok p, saveProposal store p)

/-- From `funding/manager.py`, `mark_executed` (lines 139-153): requires
status `approved`; transitions to `executed`, stamps
`executed_at`/`execution_txid`. -/
def mark_executed (store : ProposalStore) (id : String) (txid : String)
    (now : Int) : Except FundingError FundingProposal × ProposalStore :=
  match lookupProposal store id with
  | none => (Except.error (.notFound id), store)
  | some p =>
      if p.status ≠ "approved" then
        (Except.error (.invalidState id p.status), store)
      else
        let p := { p with
          status := "executed"
          executed_at := some now
          execution_txid := some txid }
        (Except.ok p, saveProposal store p)

/-- The loop body of `expire_old_proposals` (manager.py lines 161-165):
a pending proposal created strictly before the cutoff is set to `expired`
and saved; the count grows by one. -/
def expireStep (cutoff : Int) (acc : Nat × ProposalStore) (p : FundingProposal) :
    Nat × ProposalStore :=
  if p.created_at < cutoff then
    (acc.1 + 1, saveProposal acc.2 { p with status := "expired" })
  else acc

/-- From `funding/manager.py`, `expire_old_proposals` (lines 155-167): load
the `pending` proposals (note: `load_funding_proposals(status="pending")`
uses its default `limit=100`, so only the 100 newest pending proposals are
examined), and transition each one created strictly before
`now - max_age_hours` (hours, i.e. `3600` seconds each) to `expired`,
saving as it goes; returns the count transitioned. -/
def expire_old_proposals (store : ProposalStore) (now : Int)
    (max_age_hours : Nat) : Nat × ProposalStore :=
  let cutoff : Int := now - max_age_hours * 3600
  let pending := load_funding_proposals store (some "pending") 100
  pending.foldl (expireStep cutoff) (0, store)

/-- From `funding/manager.py`, `generate_proposal` (lines 29-74): fails
when the count of pending proposals (as reported by
`list_proposals(status="pending")`, whose default `limit` is 50) has
reached `funding_proposal_max_pending`; otherwise constructs a new
`FundingProposal` — `status` takes the schema default `"pending"`, the
`proposal_id` a fresh `uuid4` — and saves it.  The content fields
(amounts, justification text, ROI and risk heuristics, time horizon) are
carried by the `newp` argument; `_calculate_time_horizon` is embedded
separately below. -/
def generate_proposal (store : ProposalStore) (max_pending : Nat)
    (newp : FundingProposal) : Except String FundingProposal × ProposalStore :=
  let pending := load_funding_proposals store (some "pending") 50
  if pending.length ≥ max_pending then
    (Except.error "Maximum pending proposals reached", store)
  else
    let p := { newp with status := "pending" }
    (Except.ok p, saveProposal store p)

/-- From `funding/manager.py`, `_calculate_time_horizon` (lines 283-302):
an empty strategy list yields the default 30; otherwise the maximum,
starting from the default 30, of the per-strategy lookup (lower-cased
name; unknown names default to 30). -/
def strategy_horizons : List (String × Nat) :=
  [("market_making", 7), ("arbitrage", 1), ("yield_farming", 30),
   ("liquidity_provision", 14)]

/-- ASCII lower-casing of one character (`str.lower()`; the strategy
names involved are ASCII). -/
def lowerChar (c : Char) : Char :=
  if 65 ≤ c.toNat ∧ c.toNat ≤ 90 then Char.ofNat (c.toNat + 32) else c

/-- ASCII lower-casing (`strategy.lower()`). -/
def lowerString (s : String) : String :=
  String.mk (s.data.map lowerChar)

/-- `strategy_horizons.get(strategy.lower(), 30)`. -/
def horizonLookup (s : String) : Nat :=
  ((strategy_horizons.find? (fun kv => kv.1 == lowerString s)).map (fun kv => kv.2)).getD 30

/-- From `funding/manager.py`, `_calculate_time_horizon` (lines 283-302). -/
def calculate_time_horizon (active_strategies : List String) : Nat :=
  if active_strategies.isEmpty then 30
  else active_strategies.foldl (fun mh s => max mh (horizonLookup s)) 30

/-! ### Proposal statistics (`funding/manager.py`, lines 169-202) -/

/-- The dict returned by `get_proposal_statistics`.  `by_status` is the
status-count dict (insertion order kept); `approval_rate`, a Python float
division of two small integer counts, is modelled exactly as a rational. -/
structure ProposalStats where
  total_proposals : Nat
  by_status : List (String × Nat)
  total_requested_sats : Nat
  total_approved_sats : Nat
  approval_rate : ℚ
  average_requested_amount : Nat
deriving Repr, DecidableEq

/-- `stats["by_status"][status] = stats["by_status"].get(status, 0) + 1`. -/
def bumpCount (m : List (String × Nat)) (s : String) : List (String × Nat) :=
  match m with
  | [] => [(s, 1)]
  | kv :: rest => if kv.1 == s then (kv.1, kv.2 + 1) :: rest else kv :: bumpCount rest s

/-- `stats["by_status"].get(status, 0)`. -/
def countsGet (m : List (String × Nat)) (s : String) : Nat :=
  ((m.find? (fun kv => kv.1 == s)).map (fun kv => kv.2)).getD 0

/-- The loop body of `get_proposal_statistics` (manager.py lines 186-192):
count the status, add the requested sats, and add them to the approved
total when the status is `approved`. -/
def statTally (st : ProposalStats) (p : FundingProposal) : ProposalStats :=
  { st with
    by_status := bumpCount st.by_status p.status
    total_requested_sats := st.total_requested_sats + p.requested_amount_sats
    total_approved_sats := st.total_approved_sats +
      (if p.status == "approved" then p.requested_amount_sats else 0) }

/-- From `funding/manager.py`, `get_proposal_statistics` (lines 169-202):
loads the proposals (`load_funding_proposals()` with its default
`limit=100`, hence the 100 newest), returns the zeroed dict when empty,
otherwise tallies counts and sats in one pass, sets
`approval_rate = approved / (approved + rejected)` only when at least one
proposal was decided, and the average as integer floor division. -/
def get_proposal_statistics (store : ProposalStore) : ProposalStats :=
  let all := load_funding_proposals store none 100
  let stats : ProposalStats :=
    { total_proposals := all.length
      by_status := []
      total_requested_sats := 0
      total_approved_sats := 0
      approval_rate := 0
      average_requested_amount := 0 }
  if all.isEmpty then stats
  else
    let stats := all.foldl statTally stats
    let decided := countsGet stats.by_status "approved" + countsGet stats.by_status "rejected"
    let stats :=
      if decided > 0 then
        { stats with approval_rate :=
            (countsGet stats.by_status "approved" : ℚ) / (decided : ℚ) }
      else stats
    { stats with average_requested_amount := stats.total_requested_sats / all.length }

/-! ### The manager's mutating operations as a step machine (for the
state-machine invariant) -/

/-- One mutating call on the `FundingProposalManager`. -/
inductive MgrOp where
  | approve (id approved_by : String) (notes : Option String) (now : Int) : MgrOp
  | reject (id rejected_by reason : String) (now : Int) : MgrOp
  | markExecuted (id txid : String) (now : Int) : MgrOp
  | expire (now : Int) (max_age_hours : Nat) : MgrOp
  | generate (max_pending : Nat) (newp : FundingProposal) : MgrOp

/-- The store after one manager call (a raised `ValueError` leaves the
store untouched: each method raises before any mutation). -/
def applyOp (op : MgrOp) (store : ProposalStore) : ProposalStore :=
  match op with
  | .approve id a notes now => (approve_proposal store id a notes now).2
  | .reject id rb reason now => (reject_proposal store id rb reason now).2
  | .markExecuted id txid now => (mark_executed store id txid now).2
  | .expire now h => (expire_old_proposals store now h).2
  | .generate mp newp => (generate_proposal store mp newp).2

/-- `generate` draws its `proposal_id` from `uuid4()`; the model carries the
drawn id inside `newp` and this predicate states its freshness (the store
holds no proposal under that id).  All other operations are unconstrained. -/
def opFresh (op : MgrOp) (store : ProposalStore) : Prop :=
  match op with
  | .generate _ newp => lookupProposal store newp.proposal_id = none
  | _ => True

/-- The status of the proposal stored under `id` (`none` when absent). -/
def statusOf (store : ProposalStore) (id : String) : Option String :=
  (lookupProposal store id).map (fun p => p.status)

/-- The legal per-call status evolution of one proposal id: unchanged,
created as `pending`, `pending → approved/rejected/expired`, or
`approved → executed`. -/
def allowedStep (s t : Option String) : Prop :=
  t = s ∨ (s = none ∧ t = some "pending") ∨
    (s = some "pending" ∧
      (t = some "approved" ∨ t = some "rejected" ∨ t = some "expired")) ∨
    (s = some "approved" ∧ t = some "executed")

/-! ### The two persistence phases of `record_transaction`

`record_transaction` (engine.py lines 117-134, the persistence branch)
makes two separate persistence calls: `load_daily_spend` (the read) and
`save_daily_spend` (the write of the incremented copy).  Interleaving the
phases of two calls models their concurrent execution; the source takes no
lock between the two phases. -/

/-- Phase 1 of `record_transaction` (engine.py lines 119-124): load today's
record, lazily creating a zeroed one. -/
def record_load (st : PersistenceState) (today : String) : DailySpend :=
  match st.load_daily_spend today with
  | some d => d
  | none => { date := today, total_spent_sats := 0, transaction_count := 0 }

/-- Phase 2 of `record_transaction` (engine.py lines 126-134): increment
the snapshot taken in phase 1 and save it, then append to the history. -/
def record_save (st : PersistenceState) (snap : DailySpend)
    (request : TransactionRequest) (txid : Option String) : PersistenceState :=
  let ds := { snap with
    total_spent_sats := snap.total_spent_sats + request.amount_sats
    transaction_count := snap.transaction_count + 1 }
  (st.save_daily_spend ds).save_transaction request txid

/-! ### Webhook signature verification (`funding/n8n_adapter.py`)

`verify_webhook_signature` calls the standard library's
`hmac.new(secret, message, hashlib.sha256).hexdigest()`; SHA-256 and HMAC
(FIPS 180-4 / RFC 2104, as implemented by `hashlib`/`hmac`) are embedded
concretely below over byte lists, with 32-bit words as `Nat` reduced
mod `2^32`. -/

/-- Truncation to a 32-bit word. -/
def w32 (n : Nat) : Nat := n % 4294967296

/-- 32-bit addition. -/
def add32 (a b : Nat) : Nat := w32 (a + b)

/-- Rotate a 32-bit word right by `n` bits. -/
def rotr32 (n x : Nat) : Nat := w32 ((x >>> n) ||| (x <<< (32 - n)))

/-- Bitwise complement of a 32-bit word. -/
def not32 (x : Nat) : Nat := x ^^^ 4294967295

/-- SHA-256 `Ch(x,y,z)`. -/
def shaCh (x y z : Nat) : Nat := (x &&& y) ^^^ (not32 x &&& z)

/-- SHA-256 `Maj(x,y,z)`. -/
def shaMaj (x y z : Nat) : Nat := (x &&& y) ^^^ (x &&& z) ^^^ (y &&& z)

/-- SHA-256 `Σ0`. -/
def bigSigma0 (x : Nat) : Nat := rotr32 2 x ^^^ rotr32 13 x ^^^ rotr32 22 x

/-- SHA-256 `Σ1`. -/
def bigSigma1 (x : Nat) : Nat := rotr32 6 x ^^^ rotr32 11 x ^^^ rotr32 25 x

/-- SHA-256 `σ0`. -/
def smallSigma0 (x : Nat) : Nat := rotr32 7 x ^^^ rotr32 18 x ^^^ (x >>> 3)

/-- SHA-256 `σ1`. -/
def smallSigma1 (x : Nat) : Nat := rotr32 17 x ^^^ rotr32 19 x ^^^ (x >>> 10)

/-- The 64 SHA-256 round constants. -/
def shaK : List Nat :=
  [1116352408, 1899447441, 3049323471, 3921009573, 961987163,
   1508970993, 2453635748, 2870763221, 3624381080, 310598401,
   607225278, 1426881987, 1925078388, 2162078206, 2614888103,
   3248222580, 3835390401, 4022224774, 264347078, 604807628,
   770255983, 1249150122, 1555081692, 1996064986, 2554220882,
   2821834349, 2952996808, 3210313671, 3336571891, 3584528711,
   113926993, 338241895, 666307205, 773529912, 1294757372,
   1396182291, 1695183700, 1986661051, 2177026350, 2456956037,
   2730485921, 2820302411, 3259730800, 3345764771, 3516065817,
   3600352804, 4094571909, 275423344, 430227734, 506948616,
   659060556, 883997877, 958139571, 1322822218, 1537002063,
   1747873779, 1955562222, 2024104815, 2227730452, 2361852424,
   2428436474, 2756734187, 3204031479, 3329325298]

/-- The SHA-256 initial hash value. -/
def shaH0 : List Nat :=
  [1779033703, 3144134277, 1013904242, 2773480762,
   1359893119, 2600822924, 528734635, 1541459225]

/-- Big-endian 4-byte groups to 32-bit words. -/
def bytesToWords : List Nat → List Nat
  | b0 :: b1 :: b2 :: b3 :: rest =>
      (b0 * 16777216 + b1 * 65536 + b2 * 256 + b3) :: bytesToWords rest
  | _ => []

/-- One extension step of the message schedule (`W[t]` for `16 ≤ t`). -/
def scheduleStep (w : Array Nat) (t : Nat) : Nat :=
  add32 (add32 (smallSigma1 (w.getD (t - 2) 0)) (w.getD (t - 7) 0))
    (add32 (smallSigma0 (w.getD (t - 15) 0)) (w.getD (t - 16) 0))

/-- Extend the 16 block words to the 64-entry message schedule. -/
def fullSchedule (w16 : Array Nat) : Array Nat :=
  (List.range 48).foldl (fun w i => w.push (scheduleStep w (i + 16))) w16

/-- The SHA-256 working variables `(a,b,c,d,e,f,g,h)`. -/
abbrev ShaVars := Nat × Nat × Nat × Nat × Nat × Nat × Nat × Nat

/-- One SHA-256 compression round. -/
def shaRound (st : ShaVars) (k w : Nat) : ShaVars :=
  let (a, b, c, d, e, f, g, h) := st
  let t1 := add32 h (add32 (bigSigma1 e) (add32 (shaCh e f g) (add32 k w)))
  let t2 := add32 (bigSigma0 a) (shaMaj a b c)
  (add32 t1 t2, a, b, c, add32 d t1, e, f, g)

/-- Compress one 64-byte block into the running hash (8 words). -/
def processBlock (H : List Nat) (block : List Nat) : List Nat :=
  let w := fullSchedule (bytesToWords block).toArray
  let init : ShaVars :=
    (H.getD 0 0, H.getD 1 0, H.getD 2 0, H.getD 3 0,
     H.getD 4 0, H.getD 5 0, H.getD 6 0, H.getD 7 0)
  let r := (List.range 64).foldl
    (fun st t => shaRound st (shaK.getD t 0) (w.getD t 0)) init
  let (a, b, c, d, e, f, g, h) := r
  [add32 (H.getD 0 0) a, add32 (H.getD 1 0) b, add32 (H.getD 2 0) c,
   add32 (H.getD 3 0) d, add32 (H.getD 4 0) e, add32 (H.getD 5 0) f,
   add32 (H.getD 6 0) g, add32 (H.getD 7 0) h]

/-- A `Nat` as `k` big-endian bytes. -/
def natToBytesBE (k n : Nat) : List Nat :=
  (List.range k).map (fun i => (n >>> (8 * (k - 1 - i))) % 256)

/-- SHA-256 padding: `0x80`, zeros to 56 mod 64, then the 8-byte
big-endian bit length. -/
def sha256pad (msg : List Nat) : List Nat :=
  let z := (119 - msg.length % 64) % 64
  msg ++ [128] ++ List.replicate z 0 ++ natToBytesBE 8 (msg.length * 8)

/-- Split into 64-byte blocks. -/
def blocks64 : List Nat → List (List Nat)
  | [] => []
  | x :: rest =>
      (x :: rest).take 64 :: blocks64 ((x :: rest).drop 64)
termination_by l => l.length
decreasing_by simp [List.length_drop]; omega

/-- SHA-256 of a byte list, as a 32-byte list. -/
def sha256 (msg : List Nat) : List Nat :=
  let H := (blocks64 (sha256pad msg)).foldl processBlock shaH0
  (H.map (natToBytesBE 4)).flatten

/-- HMAC-SHA256 (RFC 2104, block size 64) of a message under a key. -/
def hmac_sha256 (key msg : List Nat) : List Nat :=
  let key := if key.length > 64 then sha256 key else key
  let key := key ++ List.replicate (64 - key.length) 0
  let ipadded := key.map (fun b => b ^^^ 54)
  let opadded := key.map (fun b => b ^^^ 92)
  sha256 (opadded ++ sha256 (ipadded ++ msg))

/-- One hex digit (lowercase, as `hexdigest` produces). -/
def hexDigit (n : Nat) : Char :=
  if n < 10 then Char.ofNat (48 + n) else Char.ofNat (87 + n)

/-- A byte list as a lowercase hex string (`.hexdigest()`). -/
def bytesToHex (bs : List Nat) : String :=
  String.mk (bs.foldr (fun b acc => hexDigit (b / 16) :: hexDigit (b % 16) :: acc) [])

/-- UTF-8 encoding of one character (Python `str.encode()`). -/
def charUtf8 (c : Char) : List Nat :=
  let n := c.toNat
  if n < 128 then [n]
  else if n < 2048 then [192 + n / 64, 128 + n % 64]
  else if n < 65536 then [224 + n / 4096, 128 + (n / 64) % 64, 128 + n % 64]
  else [240 + n / 262144, 128 + (n / 4096) % 64, 128 + (n / 64) % 64, 128 + n % 64]

/-- UTF-8 encoding of a string (Python `str.encode()`). -/
def utf8Bytes (s : String) : List Nat :=
  (s.data.map charUtf8).flatten

/-- A digit's value. -/
def digitVal (c : Char) : Option Nat :=
  if c.isDigit then some (c.toNat - 48) else none

/-- A non-empty digit run as a `Nat`. -/
def parseNatDigits (cs : List Char) : Option Nat :=
  match cs with
  | [] => none
  | _ => cs.foldl (fun acc c => acc.bind (fun a => (digitVal c).map (fun d => a * 10 + d)))
      (some 0)

/-- Python `int(timestamp)` on the canonical decimal forms (an optional
sign, then digits).  The source language additionally strips surrounding
whitespace and allows `_` digit separators; those forms are not modelled
and no claim depends on them. -/
def int_of_string (s : String) : Option Int :=
  match s.data with
  | '-' :: rest => (parseNatDigits rest).map (fun n => -(n : Int))
  | '+' :: rest => (parseNatDigits rest).map (fun n => (n : Int))
  | cs => (parseNatDigits cs).map (fun n => (n : Int))

/-- From `funding/n8n_adapter.py`, `verify_webhook_signature` (lines
124-182).  No secret configured (`None` or the falsy empty string): reject
in `prod`, accept otherwise.  Otherwise: `int(timestamp)` (a `ValueError`
is caught and yields `False`), reject when `|now - timestamp| > 300`,
else constant-time-compare the supplied signature with the hex
HMAC-SHA256 of `timestamp.encode() + payload` under the secret. -/
def verify_webhook_signature (env : String) (secret : Option String)
    (payload : List Nat) (signature : String) (timestamp : String)
    (now : Int) : Bool :=
  let noSecret : Bool := if env == "prod" then false else true
  match secret with
  | none => noSecret
  | some s =>
      if s == "" then noSecret
      else
        match int_of_string timestamp with
        | none => false
        | some t =>
            let time_diff := (now - t).natAbs
            if time_diff > 300 then false
            else
              let message := utf8Bytes timestamp ++ payload
              let expected := bytesToHex (hmac_sha256 (utf8Bytes s) message)
              signature == expected

/-! ## Supporting lemmas -/

lemma lookupDaily_insertDaily_self (m : List (String × DailySpend)) (d : String)
    (v : DailySpend) : lookupDaily (insertDaily m d v) d = some v := by
  induction m with
  | nil => simp [insertDaily, lookupDaily]
  | cons kv rest ih =>
      by_cases h : kv.1 = d
      · simp [insertDaily, lookupDaily, h]
      · simp only [insertDaily, lookupDaily] at ih ⊢
        simp [List.find?, h, ih]

lemma save_transaction_daily_spends (st : PersistenceState) (r : TransactionRequest)
    (txid : Option String) : (st.save_transaction r txid).daily_spends = st.daily_spends := by
  simp [PersistenceState.save_transaction]

/-- `record_transaction` with a persistence manager is exactly the two
phases run back to back (engine.py lines 117-134). -/
lemma record_transaction_eq_phases (e : PolicyEngine) (st : PersistenceState)
    (today : String) (r : TransactionRequest) (txid : Option String)
    (h : e.persistence = some st) :
    e.record_transaction today r txid =
      { e with persistence := some (record_save st (record_load st today) r txid) } := by
  obtain ⟨pol, pers, mem⟩ := e
  simp only at h
  subst h
  simp only [PolicyEngine.record_transaction, record_save, record_load]

/-- Loading right after a save of a snapshot whose `date` is the key
returns the incremented snapshot. -/
lemma record_load_record_save (st : PersistenceState) (snap : DailySpend)
    (r : TransactionRequest) (txid : Option String) (d : String)
    (hd : snap.date = d) :
    record_load (record_save st snap r txid) d =
      { snap with total_spent_sats := snap.total_spent_sats + r.amount_sats
                  transaction_count := snap.transaction_count + 1 } := by
  simp only [record_load, record_save, PersistenceState.load_daily_spend,
    save_transaction_daily_spends, PersistenceState.save_daily_spend]
  subst hd
  rw [lookupDaily_insertDaily_self]

/-- One sequential `record_transaction` call (the two phases back to
back), for folding over a sequence of calls. -/
def record1 (d : String) (st : PersistenceState)
    (rt : TransactionRequest × Option String) : PersistenceState :=
  record_save st (record_load st d) rt.1 rt.2

/-- A date-keyed store is well formed when the record stored under a date
carries that date. -/
def dailyWF (st : PersistenceState) (d : String) : Prop :=
  ∀ v, st.load_daily_spend d = some v → v.date = d

lemma record_load_date (st : PersistenceState) (d : String) (h : dailyWF st d) :
    (record_load st d).date = d := by
  unfold record_load
  cases hv : st.load_daily_spend d with
  | none => rfl
  | some v => exact h v hv

lemma record_load_eq_of_load (st : PersistenceState) (d : String) (v : DailySpend)
    (hv : st.load_daily_spend d = some v) : record_load st d = v := by
  unfold record_load
  rw [hv]

lemma record1_load (d : String) (st : PersistenceState)
    (rt : TransactionRequest × Option String) (hwf : dailyWF st d) :
    record_load (record1 d st rt) d =
      { (record_load st d) with
          total_spent_sats := (record_load st d).total_spent_sats + rt.1.amount_sats
          transaction_count := (record_load st d).transaction_count + 1 } :=
  record_load_record_save st (record_load st d) rt.1 rt.2 d (record_load_date st d hwf)

lemma record1_wf (d : String) (st : PersistenceState)
    (rt : TransactionRequest × Option String) (hwf : dailyWF st d) :
    dailyWF (record1 d st rt) d := by
  intro v hv
  have h1 := record_load_eq_of_load (record1 d st rt) d v hv
  rw [record1_load d st rt hwf] at h1
  rw [← h1]
  exact record_load_date st d hwf

/-- Sequential (serialized) `record_transaction` calls on the same date
add up exactly: the final total is the initial total plus the sum of the
amounts, and the count grows by the number of calls.  The lost update of
the concurrent interleaving (see the C1 theorem) is therefore a pure
concurrency effect. -/
lemma record_sequential_sum (d : String) :
    ∀ (rs : List (TransactionRequest × Option String)) (st : PersistenceState),
      dailyWF st d →
      (record_load (rs.foldl (record1 d) st) d).total_spent_sats
          = (record_load st d).total_spent_sats
            + (rs.map (fun rt => rt.1.amount_sats)).sum
      ∧ (record_load (rs.foldl (record1 d) st) d).transaction_count
          = (record_load st d).transaction_count + rs.length := by
  intro rs
  induction rs with
  | nil => intro st _; simp
  | cons rt rs ih =>
      intro st hwf
      rw [List.foldl_cons]
      obtain ⟨ih1, ih2⟩ := ih (record1 d st rt) (record1_wf d st rt hwf)
      rw [ih1, ih2, record1_load d st rt hwf]
      simp
      omega

/-! ## Claim theorems -/

/-- C1.  `record_transaction` performs an unsynchronized
load-increment-save against the daily-spend ledger (no lock anywhere in
`PolicyEngine.record_transaction` or `PersistenceManager`).  Interleaving
the two persistence phases of two concurrent calls on the same date —
both calls load (phase 1) before either saves (phase 2), amounts 5 and 7
sats against an initially empty store — leaves the date's record at
`totalSpentSats = 7`, `transactionCount = 1`: the first update is lost,
where the claim demands total `5 + 7 = 12` and count `2`. -/
theorem record_transaction_lost_update :
    lookupDaily ((record_save
        (record_save (⟨[], [], []⟩ : PersistenceState)
          (record_load (⟨[], [], []⟩ : PersistenceState) "2024-01-01")
          (⟨"dest", 5, none, none, 0⟩ : TransactionRequest) none)
        (record_load (⟨[], [], []⟩ : PersistenceState) "2024-01-01")
        (⟨"dest", 7, none, none, 0⟩ : TransactionRequest) none).daily_spends)
      "2024-01-01"
      = some ⟨"2024-01-01", 7, 1⟩
    ∧ (7 : Nat) ≠ 5 + 7 ∧ (1 : Nat) ≠ 2 := by
  refine ⟨rfl, by decide, by decide⟩

/-- C2.  The fee-rate branch of `validate_transaction` (engine.py line
101) calls `self.persistence.save_policy_violation(...)` without the
`if self.persistence:` guard that the other three branches have.  An
engine constructed without a persistence manager therefore raises
`AttributeError` when a fee-rate cap is configured and the request's fee
rate exceeds it, instead of returning the violation list; the identical
policy breach on an engine with a persistence manager returns normally. -/
theorem validate_transaction_fee_branch_raises :
    PolicyEngine.validate_transaction
        ⟨⟨100000, 50000, [], some 10, true⟩, none, []⟩ "2024-01-01"
        ⟨"bc1qdest", 1000, some 20, none, 0⟩
      = Except.error "AttributeError: NoneType object has no attribute save_policy_violation"
    ∧ (PolicyEngine.validate_transaction
        ⟨⟨100000, 50000, [], some 10, true⟩, some ⟨[], [], []⟩, []⟩ "2024-01-01"
        ⟨"bc1qdest", 1000, some 20, none, 0⟩).isOk = true := by
  refine ⟨rfl, rfl⟩

/-- C3 counterexample.  A corrupted (unparseable) daily-spend ledger file
does not surface an error on the read path: `load_daily_spend` returns a
successful `none`, indistinguishable from a genuinely absent record (the
return type has no error channel at all; `_load_json` catches
`JSONDecodeError`/`IOError` and substitutes the default, and
`load_daily_spend` catches everything else and returns `None`). -/
theorem load_daily_spend_corrupt_reads_as_absent :
    load_daily_spend_file (FileState.corrupt) "2024-01-01" = none
    ∧ load_daily_spend_file (FileState.absent) "2024-01-01" = none :=
  ⟨rfl, rfl⟩

/-- C3 (amended).  A storage **write** failure on the daily-spend ledger
surfaces an error to the caller of `save_daily_spend` (the `except ...
raise` re-raises) and leaves the prior content intact, and a successful
write commits; a **read** of corrupted or unparseable stored data is
silently degraded to an absent record — the same degradation the
ancillary violation/history logs receive — rather than surfacing an
error. -/
theorem save_daily_spend_failure_surfaces
    (fs : FileState (List (String × DailySpend))) (ds : DailySpend) (d : String) :
    (save_daily_spend_file fs ds false).1 = Except.error "write failed"
    ∧ (save_daily_spend_file fs ds false).2 = fs
    ∧ (save_daily_spend_file fs ds true).1 = Except.ok ()
    ∧ load_daily_spend_file (FileState.corrupt) d = none :=
  ⟨rfl, rfl, rfl, rfl⟩

lemma foldl_max_shift (f : String → Nat) :
    ∀ (l : List String) (a : Nat),
      l.foldl (fun mh s => max mh (f s)) a
        = max a (l.foldl (fun mh s => max mh (f s)) 0) := by
  intro l
  induction l with
  | nil => intro a; simp
  | cons s l ih =>
      intro a
      rw [List.foldl_cons, List.foldl_cons, ih (max a (f s)), ih (max 0 (f s))]
      omega

/-- C8.  `_calculate_time_horizon` equals the claim's formula: the maximum
over the active strategies of the per-strategy lookup table
(`market_making = 7`, `arbitrage = 1`, `yield_farming = 30`,
`liquidity_provision = 14`, unknown names 30) with 30 as the default
floor of the maximum; in particular a single active strategy
`"arbitrage"` yields 30 (the floor wins over the per-strategy 1).
`generate_proposal` (manager.py line 68) stores this value as the
proposal's `time_horizon_days`. -/
theorem calculate_time_horizon_spec (strats : List String) :
    calculate_time_horizon strats
      = max 30 (strats.foldl (fun mh s => max mh (horizonLookup s)) 0)
    ∧ calculate_time_horizon ["arbitrage"] = 30 := by
  constructor
  · unfold calculate_time_horizon
    by_cases h : strats.isEmpty
    · rw [if_pos h]
      rw [List.isEmpty_iff.mp h]
      simp
    · rw [if_neg h, foldl_max_shift]
  · decide

lemma get_daily_spend_logViolation (e : PolicyEngine) (v : PolicyViolation)
    (d : String) :
    (e.logViolationGuarded v).get_daily_spend d = e.get_daily_spend d := by
  obtain ⟨pol, pers, mem⟩ := e
  cases pers <;>
    simp [PolicyEngine.logViolationGuarded, PolicyEngine.get_daily_spend,
      PersistenceState.save_policy_violation, PersistenceState.load_daily_spend]

lemma get_daily_spend_mk_save_violation (pol : Policy) (st : PersistenceState)
    (mem : List DailySpend) (v : PolicyViolation) (d : String) :
    (PolicyEngine.mk pol (some (st.save_policy_violation v)) mem).get_daily_spend d
      = (PolicyEngine.mk pol (some st) mem).get_daily_spend d := by
  simp [PolicyEngine.get_daily_spend, PersistenceState.load_daily_spend,
    PersistenceState.save_policy_violation]

/-- The violation list claim C4 prescribes — violation type and severity
in discovery order, one entry per firing rule.  (`configured` for the
fee-rate cap follows the source's truthiness test: a cap of `None` or `0`
does not fire the check, and likewise a missing or zero request fee
rate.) -/
def prescribed_violations (p : Policy) (daily : Nat) (r : TransactionRequest) :
    List (String × String) :=
  (if r.amount_sats > p.max_single_tx_sats
   then [("amount_limit_exceeded", "error")] else []) ++
  (if daily + r.amount_sats > p.max_daily_spend_sats
   then [("daily_limit_exceeded", "error")] else []) ++
  (if !p.allowed_destinations.isEmpty && !p.allowed_destinations.contains r.destination
   then [("destination_not_allowed", "error")] else []) ++
  (if optTruthy p.max_fee_rate_sats_per_vbyte && optTruthy r.fee_rate_sats_per_vbyte &&
      ((r.fee_rate_sats_per_vbyte.getD 0) > (p.max_fee_rate_sats_per_vbyte.getD 0) : Bool)
   then [("fee_rate_exceeded", "warning")] else [])

/-- C4 counterexample.  As stated ("for every request ... returns exactly
the violations prescribed") the claim fails: an engine constructed
without a persistence manager raises `AttributeError` out of the fee-rate
branch (engine.py line 101) instead of returning the violation list. -/
theorem validate_transaction_raises_on_fee_breach :
    PolicyEngine.validate_transaction ⟨⟨100000, 50000, [], some 5, true⟩, none, []⟩
        "2024-02-02" ⟨"addr1", 100, some 6, none, 0⟩
      = Except.error "AttributeError: NoneType object has no attribute save_policy_violation" :=
  rfl

/-- C4 (amended).  For an engine constructed with a persistence manager,
`validate_transaction` returns (never raises) exactly the violations
prescribed by the four policy rules — `amount_limit_exceeded` (error) iff
`amount_sats > max_single_tx_sats`; `daily_limit_exceeded` (error) iff
`dailyTotal(today) + amount_sats > max_daily_spend_sats`, with
`dailyTotal` 0 when no record exists (`get_daily_spend`);
`destination_not_allowed` (error) iff `allowed_destinations` is non-empty
and the destination is not a member; `fee_rate_exceeded` (warning) iff a
(truthy) fee-rate cap is configured and the request's (truthy) fee rate
exceeds it — all checks run, in the order
amount → daily → destination → fee-rate. -/
theorem validate_transaction_rules (e : PolicyEngine) (today : String)
    (r : TransactionRequest) (st : PersistenceState)
    (h : e.persistence = some st) :
    (e.validate_transaction today r).map
        (fun x => x.1.map (fun v => (v.violation_type, v.severity)))
      = Except.ok (prescribed_violations e.policy (e.get_daily_spend today) r) := by
  obtain ⟨pol, pers, mem⟩ := e
  obtain rfl : pers = some st := h
  simp only [PolicyEngine.validate_transaction, PolicyEngine.logViolationGuarded,
    Option.map_some, prescribed_violations]
  split_ifs <;> simp_all [get_daily_spend_mk_save_violation, Except.map]

/-- C4 witness: a single request breaching all four rules at once, on an
engine with a persistence manager, yields the four violations in order. -/
theorem validate_transaction_rules_witness :
    (PolicyEngine.validate_transaction
        ⟨⟨10000, 5000, ["bc1qX"], some 10, true⟩, some ⟨[], [], []⟩, []⟩
        "2024-01-01" ⟨"bc1qY", 80000, some 20, none, 0⟩).map
        (fun x => x.1.map (fun v => (v.violation_type, v.severity)))
      = Except.ok [("amount_limit_exceeded", "error"), ("daily_limit_exceeded", "error"),
          ("destination_not_allowed", "error"), ("fee_rate_exceeded", "warning")] :=
  (validate_transaction_rules _ "2024-01-01" _ _ rfl).trans (by rfl)

lemma countsGet_cons (x : String × Nat) (l : List (String × Nat)) (s : String) :
    countsGet (x :: l) s = if x.1 == s then x.2 else countsGet l s := by
  cases hx : x.1 == s <;> simp [countsGet, List.find?, hx]

lemma countsGet_bumpCount (m : List (String × Nat)) (t s : String) :
    countsGet (bumpCount m t) s
      = if s = t then countsGet m s + 1 else countsGet m s := by
  induction m with
  | nil =>
      by_cases h : s = t
      · subst h; simp [bumpCount, countsGet, List.find?]
      · have ht : (t == s) = false := beq_eq_false_iff_ne.mpr (fun hh => h hh.symm)
        simp [bumpCount, countsGet, List.find?, ht, h]
  | cons kv rest ih =>
      by_cases h1 : kv.1 = t
      · have hb : (kv.1 == t) = true := beq_iff_eq.mpr h1
        by_cases h2 : kv.1 = s
        · have hst : s = t := h2.symm.trans h1
          simp [bumpCount, hb, countsGet_cons, beq_iff_eq.mpr h2, hst]
        · have hs : (kv.1 == s) = false := beq_eq_false_iff_ne.mpr h2
          have hst : ¬s = t := fun hh => h2 (h1.trans hh.symm)
          simp [bumpCount, hb, countsGet_cons, hs, hst]
      · have hb : (kv.1 == t) = false := beq_eq_false_iff_ne.mpr h1
        by_cases h2 : kv.1 = s
        · have hs : (kv.1 == s) = true := beq_iff_eq.mpr h2
          by_cases hst : s = t
          · exact absurd (h2.trans hst) h1
          · simp [bumpCount, hb, countsGet_cons, hs, hst]
        · have hs : (kv.1 == s) = false := beq_eq_false_iff_ne.mpr h2
          simp [bumpCount, hb, countsGet_cons, hs, ih]

lemma statTally_fold_by_status (all : List FundingProposal) :
    ∀ (init : ProposalStats) (s : String),
      countsGet ((all.foldl statTally init).by_status) s
        = countsGet init.by_status s
          + (all.filter (fun p => p.status == s)).length := by
  induction all with
  | nil => intro init s; simp
  | cons p rest ih =>
      intro init s
      rw [List.foldl_cons, ih]
      have hb : (statTally init p).by_status = bumpCount init.by_status p.status := rfl
      rw [hb, countsGet_bumpCount]
      by_cases h : s = p.status
      · simp [List.filter_cons, h.symm]
        omega
      · have : (p.status == s) = false := by
          simp
          exact fun hh => h hh.symm
        simp [List.filter_cons, this, h]

lemma statTally_fold_rate (all : List FundingProposal) :
    ∀ (init : ProposalStats),
      (all.foldl statTally init).approval_rate = init.approval_rate := by
  induction all with
  | nil => intro init; rfl
  | cons p rest ih => intro init; rw [List.foldl_cons, ih]; rfl

/-- The approved count among the proposals `get_proposal_statistics`
examines (the 100 newest, per `load_funding_proposals`' default limit). -/
def approvedCount (store : ProposalStore) : Nat :=
  ((load_funding_proposals store none 100).filter
    (fun p => p.status == "approved")).length

/-- The rejected count among the proposals `get_proposal_statistics`
examines. -/
def rejectedCount (store : ProposalStore) : Nat :=
  ((load_funding_proposals store none 100).filter
    (fun p => p.status == "rejected")).length

/-- C9.  `statistics()` reports an approval rate of 0 when no proposal
has been decided (approved and rejected counts both zero, including the
empty-store early return), and exactly
`approvedCount / (approvedCount + rejectedCount)` otherwise. -/
theorem get_proposal_statistics_approval_rate (store : ProposalStore) :
    (get_proposal_statistics store).approval_rate =
      (if approvedCount store + rejectedCount store = 0 then 0
       else (approvedCount store : ℚ)
         / (((approvedCount store + rejectedCount store : Nat)) : ℚ)) := by
  unfold get_proposal_statistics approvedCount rejectedCount
  by_cases hemp : (load_funding_proposals store none 100).isEmpty
  · rw [List.isEmpty_iff.mp hemp]
    simp
  · simp only [if_neg hemp]
    have hA : countsGet ((load_funding_proposals store none 100).foldl statTally
        ⟨(load_funding_proposals store none 100).length, [], 0, 0, 0, 0⟩).by_status "approved"
        = ((load_funding_proposals store none 100).filter
            (fun p => p.status == "approved")).length := by
      rw [statTally_fold_by_status]
      simp [countsGet]
    have hR : countsGet ((load_funding_proposals store none 100).foldl statTally
        ⟨(load_funding_proposals store none 100).length, [], 0, 0, 0, 0⟩).by_status "rejected"
        = ((load_funding_proposals store none 100).filter
            (fun p => p.status == "rejected")).length := by
      rw [statTally_fold_by_status]
      simp [countsGet]
    have hrate : ((load_funding_proposals store none 100).foldl statTally
        ⟨(load_funding_proposals store none 100).length, [], 0, 0, 0, 0⟩).approval_rate
        = 0 := by
      rw [statTally_fold_rate]
    rw [apply_ite (fun st : ProposalStats => st.approval_rate)]
    dsimp only
    by_cases hdec : countsGet ((load_funding_proposals store none 100).foldl statTally
        ⟨(load_funding_proposals store none 100).length, [], 0, 0, 0, 0⟩).by_status "approved"
      + countsGet ((load_funding_proposals store none 100).foldl statTally
        ⟨(load_funding_proposals store none 100).length, [], 0, 0, 0, 0⟩).by_status "rejected" > 0
    · rw [if_pos hdec, hA, hR]
      rw [hA, hR] at hdec
      rw [if_neg (by omega)]
    · rw [if_neg hdec, hrate]
      rw [hA, hR] at hdec
      rw [if_pos (by omega)]

lemma lookupProposal_key (store : ProposalStore) (id : String) (p : FundingProposal)
    (h : lookupProposal store id = some p) : p.proposal_id = id := by
  have := List.find?_some h
  simpa using this

lemma lookup_saveProposal_self (store : ProposalStore) (p : FundingProposal) :
    lookupProposal (saveProposal store p) p.proposal_id = some p := by
  induction store with
  | nil => simp [saveProposal, lookupProposal, List.find?]
  | cons q rest ih =>
      by_cases h : q.proposal_id = p.proposal_id
      · simp [saveProposal, beq_iff_eq.mpr h, lookupProposal, List.find?]
      · have hb : (q.proposal_id == p.proposal_id) = false := beq_eq_false_iff_ne.mpr h
        simp only [saveProposal, hb, if_false, Bool.false_eq_true]
        simp only [lookupProposal, List.find?, hb] at ih ⊢
        exact ih

lemma lookup_saveProposal_other (store : ProposalStore) (p : FundingProposal)
    (id : String) (h : id ≠ p.proposal_id) :
    lookupProposal (saveProposal store p) id = lookupProposal store id := by
  have hp : (p.proposal_id == id) = false := beq_eq_false_iff_ne.mpr (fun hh => h hh.symm)
  induction store with
  | nil => simp [saveProposal, lookupProposal, List.find?, hp]
  | cons q rest ih =>
      by_cases hq : q.proposal_id = p.proposal_id
      · have hqid : (q.proposal_id == id) = false :=
          beq_eq_false_iff_ne.mpr (fun hh => h (hh ▸ hq ▸ rfl))
        simp [saveProposal, beq_iff_eq.mpr hq, lookupProposal, List.find?, hp, hqid]
      · have hb : (q.proposal_id == p.proposal_id) = false := beq_eq_false_iff_ne.mpr hq
        cases hqid : (q.proposal_id == id) with
        | true => simp [saveProposal, hb, lookupProposal, List.find?, hqid]
        | false =>
            simp only [saveProposal, hb, if_false, Bool.false_eq_true]
            simp only [lookupProposal, List.find?, hqid] at ih ⊢
            exact ih

lemma approve_frame_spec :
    ∀ (store : ProposalStore) (id a : String) (notes : Option String) (now : Int)
        (p : FundingProposal),
      lookupProposal store id = some p → p.status = "pending" →
      ∃ p', approve_proposal store id a notes now = (Except.ok p', saveProposal store p')
        ∧ lookupProposal (saveProposal store p') id = some p'
        ∧ p'.status = "approved"
        ∧ p'.approved_at = some now ∧ p'.approved_by = some a
        ∧ p'.approval_notes = (match notes with
            | some s => if s ≠ "" then some s else p.approval_notes
            | none => p.approval_notes)
        ∧ p'.proposal_id = p.proposal_id ∧ p'.created_at = p.created_at
        ∧ p'.requested_amount_sats = p.requested_amount_sats
        ∧ p'.current_balance_sats = p.current_balance_sats
        ∧ p'.justification = p.justification ∧ p'.intended_use = p.intended_use
        ∧ p'.expected_roi_sats = p.expected_roi_sats
        ∧ p'.risk_assessment = p.risk_assessment
        ∧ p'.strategies_to_execute = p.strategies_to_execute
        ∧ p'.time_horizon_days = p.time_horizon_days
        ∧ p'.rejected_at = p.rejected_at ∧ p'.rejected_by = p.rejected_by
        ∧ p'.executed_at = p.executed_at ∧ p'.execution_txid = p.execution_txid
        ∧ p'.n8n_workflow_id = p.n8n_workflow_id := by
  intro store id a notes now p hl hp
  have hid : p.proposal_id = id := lookupProposal_key store id p hl
  unfold approve_proposal
  simp only [hl]
  rw [if_neg (not_not_intro hp)]
  cases notes with
  | none =>
      refine ⟨_, rfl, ?_, ?_⟩
      · rw [← hid]
        exact lookup_saveProposal_self store _
      · repeat' apply And.intro
        all_goals rfl
  | some s =>
      dsimp only
      by_cases hs : s ≠ ""
      · rw [if_pos hs]
        refine ⟨_, rfl, ?_, ?_⟩
        · rw [← hid]
          exact lookup_saveProposal_self store _
        · repeat' apply And.intro
          all_goals first | rfl | rw [if_pos hs]
      · rw [if_neg hs]
        refine ⟨_, rfl, ?_, ?_⟩
        · rw [← hid]
          exact lookup_saveProposal_self store _
        · repeat' apply And.intro
          all_goals first | rfl | rw [if_neg hs]

lemma reject_frame_spec :
    ∀ (store : ProposalStore) (id rb reason : String) (now : Int)
        (p : FundingProposal),
      lookupProposal store id = some p → p.status = "pending" →
      ∃ p', reject_proposal store id rb reason now = (Except.ok p', saveProposal store p')
        ∧ lookupProposal (saveProposal store p') id = some p'
        ∧ p'.status = "rejected"
        ∧ p'.rejected_at = some now ∧ p'.rejected_by = some rb
        ∧ p'.approval_notes = some reason
        ∧ p'.proposal_id = p.proposal_id ∧ p'.created_at = p.created_at
        ∧ p'.requested_amount_sats = p.requested_amount_sats
        ∧ p'.current_balance_sats = p.current_balance_sats
        ∧ p'.justification = p.justification ∧ p'.intended_use = p.intended_use
        ∧ p'.expected_roi_sats = p.expected_roi_sats
        ∧ p'.risk_assessment = p.risk_assessment
        ∧ p'.strategies_to_execute = p.strategies_to_execute
        ∧ p'.time_horizon_days = p.time_horizon_days
        ∧ p'.approved_at = p.approved_at ∧ p'.approved_by = p.approved_by
        ∧ p'.executed_at = p.executed_at ∧ p'.execution_txid = p.execution_txid
        ∧ p'.n8n_workflow_id = p.n8n_workflow_id := by
  intro store id rb reason now p hl hp
  have hid : p.proposal_id = id := lookupProposal_key store id p hl
  unfold reject_proposal
  simp only [hl]
  rw [if_neg (not_not_intro hp)]
  refine ⟨_, rfl, ?_, ?_⟩
  · rw [← hid]
    exact lookup_saveProposal_self store _
  · repeat' apply And.intro
    all_goals rfl

lemma mark_executed_frame_spec :
    ∀ (store : ProposalStore) (id txid : String) (now : Int)
        (p : FundingProposal),
      lookupProposal store id = some p → p.status = "approved" →
      ∃ p', mark_executed store id txid now = (Except.ok p', saveProposal store p')
        ∧ lookupProposal (saveProposal store p') id = some p'
        ∧ p'.status = "executed"
        ∧ p'.executed_at = some now ∧ p'.execution_txid = some txid
        ∧ p'.proposal_id = p.proposal_id ∧ p'.created_at = p.created_at
        ∧ p'.requested_amount_sats = p.requested_amount_sats
        ∧ p'.current_balance_sats = p.current_balance_sats
        ∧ p'.justification = p.justification ∧ p'.intended_use = p.intended_use
        ∧ p'.expected_roi_sats = p.expected_roi_sats
        ∧ p'.risk_assessment = p.risk_assessment
        ∧ p'.strategies_to_execute = p.strategies_to_execute
        ∧ p'.time_horizon_days = p.time_horizon_days
        ∧ p'.approved_at = p.approved_at ∧ p'.approved_by = p.approved_by
        ∧ p'.approval_notes = p.approval_notes
        ∧ p'.rejected_at = p.rejected_at ∧ p'.rejected_by = p.rejected_by
        ∧ p'.n8n_workflow_id = p.n8n_workflow_id := by
  intro store id txid now p hl hp
  have hid : p.proposal_id = id := lookupProposal_key store id p hl
  unfold mark_executed
  simp only [hl]
  rw [if_neg (not_not_intro hp)]
  refine ⟨_, rfl, ?_, ?_⟩
  · rw [← hid]
    exact lookup_saveProposal_self store _
  · repeat' apply And.intro
    all_goals rfl

/-- C10.  A successful `approve`, `reject` or `mark_executed` changes on
the stored proposal only its status plus the fields it stamps (approve:
`approved_at`/`approved_by`, and `approval_notes` only for truthy notes;
reject: `rejected_at`/`rejected_by` and the reason into `approval_notes`;
markExecuted: `executed_at`/`execution_txid`); every other field —
`proposal_id`, `created_at`, `requested_amount_sats`,
`current_balance_sats`, `justification`, `intended_use`,
`expected_roi_sats`, `risk_assessment`, `strategies_to_execute`,
`time_horizon_days`, and the untouched stamp fields — is unchanged, and
the updated proposal is what the store then holds under the id. -/
theorem lifecycle_frame :
    (∀ (store : ProposalStore) (id a : String) (notes : Option String) (now : Int)
        (p : FundingProposal),
      lookupProposal store id = some p → p.status = "pending" →
      ∃ p', approve_proposal store id a notes now = (Except.ok p', saveProposal store p')
        ∧ lookupProposal (saveProposal store p') id = some p'
        ∧ p'.status = "approved"
        ∧ p'.approved_at = some now ∧ p'.approved_by = some a
        ∧ p'.approval_notes = (match notes with
            | some s => if s ≠ "" then some s else p.approval_notes
            | none => p.approval_notes)
        ∧ p'.proposal_id = p.proposal_id ∧ p'.created_at = p.created_at
        ∧ p'.requested_amount_sats = p.requested_amount_sats
        ∧ p'.current_balance_sats = p.current_balance_sats
        ∧ p'.justification = p.justification ∧ p'.intended_use = p.intended_use
        ∧ p'.expected_roi_sats = p.expected_roi_sats
        ∧ p'.risk_assessment = p.risk_assessment
        ∧ p'.strategies_to_execute = p.strategies_to_execute
        ∧ p'.time_horizon_days = p.time_horizon_days
        ∧ p'.rejected_at = p.rejected_at ∧ p'.rejected_by = p.rejected_by
        ∧ p'.executed_at = p.executed_at ∧ p'.execution_txid = p.execution_txid
        ∧ p'.n8n_workflow_id = p.n8n_workflow_id)
    ∧ (∀ (store : ProposalStore) (id rb reason : String) (now : Int)
        (p : FundingProposal),
      lookupProposal store id = some p → p.status = "pending" →
      ∃ p', reject_proposal store id rb reason now = (Except.ok p', saveProposal store p')
        ∧ lookupProposal (saveProposal store p') id = some p'
        ∧ p'.status = "rejected"
        ∧ p'.rejected_at = some now ∧ p'.rejected_by = some rb
        ∧ p'.approval_notes = some reason
        ∧ p'.proposal_id = p.proposal_id ∧ p'.created_at = p.created_at
        ∧ p'.requested_amount_sats = p.requested_amount_sats
        ∧ p'.current_balance_sats = p.current_balance_sats
        ∧ p'.justification = p.justification ∧ p'.intended_use = p.intended_use
        ∧ p'.expected_roi_sats = p.expected_roi_sats
        ∧ p'.risk_assessment = p.risk_assessment
        ∧ p'.strategies_to_execute = p.strategies_to_execute
        ∧ p'.time_horizon_days = p.time_horizon_days
        ∧ p'.approved_at = p.approved_at ∧ p'.approved_by = p.approved_by
        ∧ p'.executed_at = p.executed_at ∧ p'.execution_txid = p.execution_txid
        ∧ p'.n8n_workflow_id = p.n8n_workflow_id)
    ∧ (∀ (store : ProposalStore) (id txid : String) (now : Int)
        (p : FundingProposal),
      lookupProposal store id = some p → p.status = "approved" →
      ∃ p', mark_executed store id txid now = (Except.ok p', saveProposal store p')
        ∧ lookupProposal (saveProposal store p') id = some p'
        ∧ p'.status = "executed"
        ∧ p'.executed_at = some now ∧ p'.execution_txid = some txid
        ∧ p'.proposal_id = p.proposal_id ∧ p'.created_at = p.created_at
        ∧ p'.requested_amount_sats = p.requested_amount_sats
        ∧ p'.current_balance_sats = p.current_balance_sats
        ∧ p'.justification = p.justification ∧ p'.intended_use = p.intended_use
        ∧ p'.expected_roi_sats = p.expected_roi_sats
        ∧ p'.risk_assessment = p.risk_assessment
        ∧ p'.strategies_to_execute = p.strategies_to_execute
        ∧ p'.time_horizon_days = p.time_horizon_days
        ∧ p'.approved_at = p.approved_at ∧ p'.approved_by = p.approved_by
        ∧ p'.approval_notes = p.approval_notes
        ∧ p'.rejected_at = p.rejected_at ∧ p'.rejected_by = p.rejected_by
        ∧ p'.n8n_workflow_id = p.n8n_workflow_id) :=
  ⟨approve_frame_spec, reject_frame_spec, mark_executed_frame_spec⟩

/-! Machinery for characterizing `expire_old_proposals` as a pointwise map
over the store (under the dict invariant that proposal ids are distinct). -/

/-- The ids of the `pending`-loaded proposals that are stale at the cutoff. -/
def staleIds (P : List FundingProposal) (cutoff : Int) : List String :=
  (P.filter (fun p => decide (p.created_at < cutoff))).map (fun p => p.proposal_id)

/-- The pointwise effect of one `expire_old_proposals` run on a stored
proposal: expired when its id is among the stale loaded ids, untouched
otherwise. -/
def expiredIn (P : List FundingProposal) (cutoff : Int) (q : FundingProposal) :
    FundingProposal :=
  if (staleIds P cutoff).contains q.proposal_id then { q with status := "expired" } else q

lemma expiredIn_key (P : List FundingProposal) (cutoff : Int) (q : FundingProposal) :
    (expiredIn P cutoff q).proposal_id = q.proposal_id := by
  unfold expiredIn
  split <;> rfl

lemma lookup_of_mem_nodup (store : ProposalStore) (q : FundingProposal)
    (hn : (store.map (fun r => r.proposal_id)).Nodup) (hq : q ∈ store) :
    lookupProposal store q.proposal_id = some q := by
  induction store with
  | nil => cases hq
  | cons r rest ih =>
      rcases List.mem_cons.mp hq with hq | hq
      · subst hq
        simp [lookupProposal, List.find?]
      · have hr : r.proposal_id ≠ q.proposal_id := by
          intro hh
          exact (List.nodup_cons.mp hn).1 (List.mem_map.mpr ⟨q, hq, hh.symm⟩)
        have hb : (r.proposal_id == q.proposal_id) = false := beq_eq_false_iff_ne.mpr hr
        simp only [lookupProposal, List.find?, hb]
        exact ih (List.nodup_cons.mp hn).2 hq

lemma mem_eq_of_lookup (store : ProposalStore) (q p : FundingProposal)
    (hn : (store.map (fun r => r.proposal_id)).Nodup) (hq : q ∈ store)
    (hl : lookupProposal store q.proposal_id = some p) : q = p := by
  have := lookup_of_mem_nodup store q hn hq
  rw [this] at hl
  exact Option.some_injective _ hl

lemma saveProposal_eq_map (store : ProposalStore) (p q : FundingProposal)
    (hn : (store.map (fun r => r.proposal_id)).Nodup)
    (hq : lookupProposal store p.proposal_id = some q) :
    saveProposal store p
      = store.map (fun r => if r.proposal_id == p.proposal_id then p else r) := by
  induction store with
  | nil => simp [lookupProposal, List.find?] at hq
  | cons r rest ih =>
      by_cases h : r.proposal_id = p.proposal_id
      · have hpt : ∀ x ∈ rest,
            (if x.proposal_id == p.proposal_id then p else x) = id x := by
          intro x hx
          have hxk : x.proposal_id ≠ p.proposal_id := by
            intro hh
            exact (List.nodup_cons.mp hn).1
              (List.mem_map.mpr ⟨x, hx, hh.trans h.symm⟩)
          simp [beq_eq_false_iff_ne.mpr hxk]
        have hmap : rest.map (fun x => if x.proposal_id == p.proposal_id then p else x)
            = rest := by
          rw [List.map_congr_left hpt, List.map_id]
        simp only [List.map_cons, hmap]
        have hfr : (if r.proposal_id == p.proposal_id then p else r) = p := by
          simp [h]
        rw [hfr]
        simp [saveProposal, h]
      · have hb : (r.proposal_id == p.proposal_id) = false := beq_eq_false_iff_ne.mpr h
        have hq' : lookupProposal rest p.proposal_id = some q := by
          simpa [lookupProposal, List.find?, hb] using hq
        simp only [saveProposal, hb, if_false, Bool.false_eq_true, List.map_cons]
        rw [ih (List.nodup_cons.mp hn).2 hq']

lemma lookup_map_keyfix (store : ProposalStore) (F : FundingProposal → FundingProposal)
    (hF : ∀ q, (F q).proposal_id = q.proposal_id) (id : String) :
    lookupProposal (store.map F) id = (lookupProposal store id).map F := by
  induction store with
  | nil => simp [lookupProposal]
  | cons r rest ih =>
      cases hb : (r.proposal_id == id) with
      | true =>
          have : ((F r).proposal_id == id) = true := by rw [hF]; exact hb
          simp [lookupProposal, List.find?, hb, this]
      | false =>
          have : ((F r).proposal_id == id) = false := by rw [hF]; exact hb
          simp only [lookupProposal, List.find?, hb, this, List.map_cons]
          exact ih

lemma expiredIn_nil (cutoff : Int) (q : FundingProposal) :
    expiredIn [] cutoff q = q := by
  simp [expiredIn, staleIds]

lemma expiredIn_cons_stale (p : FundingProposal) (P : List FundingProposal)
    (cutoff : Int) (hst : p.created_at < cutoff) (q : FundingProposal) :
    expiredIn (p :: P) cutoff q =
      (if q.proposal_id == p.proposal_id then { q with status := "expired" }
       else expiredIn P cutoff q) := by
  unfold expiredIn staleIds
  rw [List.filter_cons_of_pos (by simpa using hst), List.map_cons,
    List.contains_cons]
  cases hb : (q.proposal_id == p.proposal_id) with
  | true => simp
  | false => rw [Bool.false_or]; simp

lemma expiredIn_cons_fresh (p : FundingProposal) (P : List FundingProposal)
    (cutoff : Int) (hst : ¬(p.created_at < cutoff)) (q : FundingProposal) :
    expiredIn (p :: P) cutoff q = expiredIn P cutoff q := by
  unfold expiredIn staleIds
  rw [List.filter_cons_of_neg (by simpa using hst)]

lemma expireFold_batch (cutoff : Int) :
    ∀ (P : List FundingProposal) (n : Nat) (s : ProposalStore),
      (s.map (fun r => r.proposal_id)).Nodup →
      (P.map (fun r => r.proposal_id)).Nodup →
      (∀ p ∈ P, lookupProposal s p.proposal_id = some p) →
      P.foldl (expireStep cutoff) (n, s)
        = (n + (P.filter (fun p => decide (p.created_at < cutoff))).length,
           s.map (expiredIn P cutoff)) := by
  intro P
  induction P with
  | nil =>
      intro n s hs hP hsub
      have hpt : ∀ q ∈ s, expiredIn [] cutoff q = id q :=
        fun q _ => expiredIn_nil cutoff q
      have : s.map (expiredIn [] cutoff) = s := by
        rw [List.map_congr_left hpt, List.map_id]
      simp [this]
  | cons p P ih =>
      intro n s hs hP hsub
      rw [List.foldl_cons]
      have hlp : lookupProposal s p.proposal_id = some p := hsub p (List.mem_cons_self p P)
      have hPk : p.proposal_id ∉ P.map (fun r => r.proposal_id) :=
        (List.nodup_cons.mp hP).1
      by_cases hst : p.created_at < cutoff
      · have hstep : expireStep cutoff (n, s) p
            = (n + 1, saveProposal s { p with status := "expired" }) := by
          simp [expireStep, hst]
        rw [hstep]
        have hsave : saveProposal s { p with status := "expired" }
            = s.map (fun r => if r.proposal_id == p.proposal_id
                then { p with status := "expired" } else r) :=
          saveProposal_eq_map s { p with status := "expired" } p hs hlp
        rw [hsave]
        have hkeys : (s.map (fun r => if r.proposal_id == p.proposal_id
              then { p with status := "expired" } else r)).map (fun r => r.proposal_id)
            = s.map (fun r => r.proposal_id) := by
          rw [List.map_map]
          apply List.map_congr_left
          intro r _
          by_cases hr : r.proposal_id = p.proposal_id
          · simp [hr]
          · simp [hr]
        have hs' : ((s.map (fun r => if r.proposal_id == p.proposal_id
              then { p with status := "expired" } else r)).map
              (fun r => r.proposal_id)).Nodup := by
          rw [hkeys]; exact hs
        have hsub' : ∀ q ∈ P, lookupProposal (s.map (fun r =>
              if r.proposal_id == p.proposal_id
              then { p with status := "expired" } else r)) q.proposal_id = some q := by
          intro q hq
          have hqp : q.proposal_id ≠ p.proposal_id := by
            intro hh
            exact hPk (List.mem_map.mpr ⟨q, hq, hh⟩)
          rw [lookup_map_keyfix _ _ (fun r => by
            by_cases hr : r.proposal_id = p.proposal_id
            · simp [hr]
            · simp [hr])]
          rw [hsub q (List.mem_cons_of_mem p hq)]
          simp [hqp]
        rw [ih (n + 1) _ hs' (List.nodup_cons.mp hP).2 hsub']
        simp only [Prod.mk.injEq]
        refine ⟨?_, ?_⟩
        · rw [List.filter_cons_of_pos (by simpa using hst)]
          simp
          omega
        · rw [List.map_map]
          apply List.map_congr_left
          intro r hr
          by_cases hrp : r.proposal_id = p.proposal_id
          · have hreq : r = p := by
              apply mem_eq_of_lookup s r p hs hr
              rw [hrp]; exact hlp
            have h1 : (if r.proposal_id == p.proposal_id
                then { p with status := "expired" } else r) = { p with status := "expired" } := by
              simp [beq_iff_eq.mpr hrp]
            have h2 : expiredIn P cutoff { p with status := "expired" }
                = { p with status := "expired" } := by
              unfold expiredIn
              rw [if_neg]
              intro hc
              apply hPk
              have hmem : p.proposal_id ∈ staleIds P cutoff := by
                simpa using hc
              unfold staleIds at hmem
              rcases List.mem_map.mp hmem with ⟨x, hx, hxk⟩
              exact List.mem_map.mpr ⟨x, List.mem_of_mem_filter hx, hxk⟩
            have h3 : expiredIn (p :: P) cutoff r = { p with status := "expired" } := by
              rw [expiredIn_cons_stale p P cutoff hst, if_pos (beq_iff_eq.mpr hrp)]
              rw [hreq]
            simp only [Function.comp]
            rw [h1, h2, h3]
          · have h1 : (if r.proposal_id == p.proposal_id
                then { p with status := "expired" } else r) = r := by
              simp [beq_eq_false_iff_ne.mpr hrp]
            simp only [Function.comp]
            rw [h1, expiredIn_cons_stale p P cutoff hst,
              if_neg (by simp [beq_eq_false_iff_ne.mpr hrp])]
      · have hstep : expireStep cutoff (n, s) p = (n, s) := by
          simp [expireStep, hst]
        rw [hstep, ih n s hs (List.nodup_cons.mp hP).2
          (fun q hq => hsub q (List.mem_cons_of_mem p hq))]
        simp only [Prod.mk.injEq]
        refine ⟨?_, ?_⟩
        · rw [List.filter_cons_of_neg (by simpa using hst)]
        · apply List.map_congr_left
          intro r _
          rw [expiredIn_cons_fresh p P cutoff hst]

lemma expireFold_no_stale (cutoff : Int) :
    ∀ (P : List FundingProposal) (acc : Nat × ProposalStore),
      (∀ p ∈ P, ¬(p.created_at < cutoff)) →
      P.foldl (expireStep cutoff) acc = acc := by
  intro P
  induction P with
  | nil => intro acc _; rfl
  | cons p P ih =>
      intro acc h
      rw [List.foldl_cons]
      have : expireStep cutoff acc p = acc := by
        simp [expireStep, h p (List.mem_cons_self p P)]
      rw [this]
      exact ih acc (fun q hq => h q (List.mem_cons_of_mem p hq))

lemma mem_of_mem_load (store : ProposalStore) (os : Option String) (limit : Nat)
    (p : FundingProposal) (h : p ∈ load_funding_proposals store os limit) :
    p ∈ store := by
  unfold load_funding_proposals at h
  have h1 := List.mem_of_mem_take h
  have h2 := (List.perm_insertionSort createdDesc _).mem_iff.mp h1
  exact List.mem_of_mem_filter h2

lemma status_of_mem_load (store : ProposalStore) (s : String) (limit : Nat)
    (p : FundingProposal) (h : p ∈ load_funding_proposals store (some s) limit) :
    p.status = s := by
  unfold load_funding_proposals at h
  have h1 := List.mem_of_mem_take h
  have h2 := (List.perm_insertionSort createdDesc _).mem_iff.mp h1
  have := List.of_mem_filter h2
  simpa using this

lemma load_keys_nodup (store : ProposalStore) (os : Option String) (limit : Nat)
    (hn : (store.map (fun r => r.proposal_id)).Nodup) :
    ((load_funding_proposals store os limit).map (fun r => r.proposal_id)).Nodup := by
  unfold load_funding_proposals
  apply ((List.take_sublist _ _).map _).nodup
  apply (((List.perm_insertionSort createdDesc _).map _).nodup_iff).mpr
  exact ((List.filter_sublist store).map _).nodup hn

lemma load_lookup (store : ProposalStore) (os : Option String) (limit : Nat)
    (hn : (store.map (fun r => r.proposal_id)).Nodup) :
    ∀ p ∈ load_funding_proposals store os limit,
      lookupProposal store p.proposal_id = some p :=
  fun p hp => lookup_of_mem_nodup store p hn (mem_of_mem_load store os limit p hp)

/-- Under the dict invariant (distinct ids), one `expire_old_proposals`
run returns the stale count among the loaded pending proposals and
rewrites the store pointwise. -/
lemma expire_old_proposals_eq (store : ProposalStore) (now : Int) (mah : Nat)
    (hn : (store.map (fun r => r.proposal_id)).Nodup) :
    expire_old_proposals store now mah
      = (((load_funding_proposals store (some "pending") 100).filter
            (fun p => decide (p.created_at < now - mah * 3600))).length,
         store.map (expiredIn (load_funding_proposals store (some "pending") 100)
            (now - mah * 3600))) := by
  unfold expire_old_proposals
  rw [expireFold_batch (now - mah * 3600) _ 0 store hn
    (load_keys_nodup store (some "pending") 100 hn)
    (load_lookup store (some "pending") 100 hn)]
  simp

lemma load_pending_filter (store : ProposalStore) (limit : Nat) :
    load_funding_proposals store (some "pending") limit
      = ((store.filter (fun p => p.status == "pending")).insertionSort createdDesc).take limit :=
  rfl

lemma contains_staleIds_status (store : ProposalStore) (s : String) (limit : Nat)
    (cutoff : Int) (hn : (store.map (fun r => r.proposal_id)).Nodup)
    (q : FundingProposal) (hq : q ∈ store)
    (hc : (staleIds (load_funding_proposals store (some s) limit) cutoff).contains
        q.proposal_id = true) : q.status = s := by
  have hmem : q.proposal_id ∈ staleIds (load_funding_proposals store (some s) limit) cutoff := by
    simpa using hc
  unfold staleIds at hmem
  rcases List.mem_map.mp hmem with ⟨r, hr, hrk⟩
  have hrload := List.mem_of_mem_filter hr
  have hrst : r.status = s := status_of_mem_load store s limit r hrload
  have hrl : lookupProposal store r.proposal_id = some r :=
    load_lookup store (some s) limit hn r hrload
  rw [hrk] at hrl
  have hqr : q = r := mem_eq_of_lookup store q r hn hq hrl
  rw [hqr]
  exact hrst

/-- C7 (amended).  `expire_old_proposals` never touches a stored proposal
whose status is not `pending`, and — provided the store holds at most 100
pending proposals, so that the `limit=100` of its internal
`load_funding_proposals(status="pending")` call does not truncate — it is
idempotent: an immediately repeated run returns count 0 and leaves the
store exactly as the first run left it.  (The store satisfies the dict
invariant: proposal ids are distinct.) -/
theorem expire_old_proposals_idempotent :
    (∀ (store : ProposalStore) (now : Int) (mah : Nat),
      (store.map (fun r => r.proposal_id)).Nodup →
      (store.filter (fun p => p.status == "pending")).length ≤ 100 →
      expire_old_proposals (expire_old_proposals store now mah).2 now mah
        = (0, (expire_old_proposals store now mah).2))
    ∧ (∀ (store : ProposalStore) (now : Int) (mah : Nat) (id : String)
        (q : FundingProposal),
      (store.map (fun r => r.proposal_id)).Nodup →
      lookupProposal store id = some q → q.status ≠ "pending" →
      lookupProposal (expire_old_proposals store now mah).2 id = some q) := by
  constructor
  · intro store now mah hn hpc
    rw [expire_old_proposals_eq store now mah hn]
    dsimp only
    unfold expire_old_proposals
    apply expireFold_no_stale
    intro p hp
    have hpmem := mem_of_mem_load _ _ _ p hp
    have hpst := status_of_mem_load _ "pending" 100 p hp
    rcases List.mem_map.mp hpmem with ⟨q, hq, hpq⟩
    by_cases hc : (staleIds (load_funding_proposals store (some "pending") 100)
        (now - mah * 3600)).contains q.proposal_id = true
    · exfalso
      have hps : p.status = "expired" := by
        rw [← hpq]
        unfold expiredIn
        rw [if_pos hc]
      rw [hps] at hpst
      exact absurd hpst (by decide)
    · have hpq2 : p = q := by
        rw [← hpq]
        unfold expiredIn
        rw [if_neg hc]
      intro hstale
      apply hc
      have hqpend : q.status = "pending" := by rw [← hpq2]; exact hpst
      have hqstale : q.created_at < now - mah * 3600 := by rw [← hpq2]; exact hstale
      have hqfil : q ∈ store.filter (fun r => r.status == "pending") :=
        List.mem_filter.mpr ⟨hq, by simp [hqpend]⟩
      have hqP1 : q ∈ load_funding_proposals store (some "pending") 100 := by
        rw [load_pending_filter,
          List.take_of_length_le (by rw [List.length_insertionSort]; exact hpc)]
        exact (List.perm_insertionSort createdDesc _).mem_iff.mpr hqfil
      have : q.proposal_id ∈ staleIds
          (load_funding_proposals store (some "pending") 100) (now - mah * 3600) := by
        unfold staleIds
        exact List.mem_map.mpr
          ⟨q, List.mem_filter.mpr ⟨hqP1, by simpa using hqstale⟩, rfl⟩
      simpa using this
  · intro store now mah id q hn hl hq
    rw [expire_old_proposals_eq store now mah hn]
    dsimp only
    rw [lookup_map_keyfix _ _ (expiredIn_key _ _) id, hl]
    simp only [Option.map]
    unfold expiredIn
    rw [if_neg]
    intro hc
    exact hq (contains_staleIds_status store "pending" 100 _ hn q
      (List.mem_of_find?_eq_some hl) hc)

/-- C5.  For every store satisfying the dict invariant (distinct proposal
ids) and every manager call (with `generate` drawing a fresh uuid), a
proposal's status evolves only along `pending → approved/rejected/expired`,
`approved → executed`, or creation as `pending`; and `approve`/`reject` on
an absent or non-`pending` proposal, and `mark_executed` on an absent or
non-`approved` proposal, fail with the `NotFound`/`InvalidState` error and
return the store unchanged. -/
theorem proposal_state_machine :
    (∀ (store : ProposalStore) (op : MgrOp) (id : String),
        (store.map (fun r => r.proposal_id)).Nodup → opFresh op store →
        allowedStep (statusOf store id) (statusOf (applyOp op store) id))
    ∧ (∀ (store : ProposalStore) (id a : String) (notes : Option String) (now : Int),
        lookupProposal store id = none →
        approve_proposal store id a notes now
          = (Except.error (FundingError.notFound id), store))
    ∧ (∀ (store : ProposalStore) (id a : String) (notes : Option String) (now : Int)
        (p : FundingProposal),
        lookupProposal store id = some p → p.status ≠ "pending" →
        approve_proposal store id a notes now
          = (Except.error (FundingError.invalidState id p.status), store))
    ∧ (∀ (store : ProposalStore) (id rb reason : String) (now : Int),
        lookupProposal store id = none →
        reject_proposal store id rb reason now
          = (Except.error (FundingError.notFound id), store))
    ∧ (∀ (store : ProposalStore) (id rb reason : String) (now : Int)
        (p : FundingProposal),
        lookupProposal store id = some p → p.status ≠ "pending" →
        reject_proposal store id rb reason now
          = (Except.error (FundingError.invalidState id p.status), store))
    ∧ (∀ (store : ProposalStore) (id txid : String) (now : Int),
        lookupProposal store id = none →
        mark_executed store id txid now
          = (Except.error (FundingError.notFound id), store))
    ∧ (∀ (store : ProposalStore) (id txid : String) (now : Int)
        (p : FundingProposal),
        lookupProposal store id = some p → p.status ≠ "approved" →
        mark_executed store id txid now
          = (Except.error (FundingError.invalidState id p.status), store)) := by
  refine ⟨?_, ?_, ?_, ?_, ?_, ?_, ?_⟩
  · intro store op id hn hfresh
    unfold allowedStep
    cases op with
    | approve id0 a notes now =>
        simp only [applyOp]
        cases hl : lookupProposal store id0 with
        | none =>
            unfold approve_proposal
            rw [hl]
            exact Or.inl rfl
        | some p =>
            by_cases hst : p.status = "pending"
            · obtain ⟨p', heq, hlook, hstat, _, _, _, hkey, _⟩ :=
                approve_frame_spec store id0 a notes now p hl hst
              have h2 : (approve_proposal store id0 a notes now).2
                  = saveProposal store p' := by rw [heq]
              rw [h2]
              by_cases hid : id = id0
              · subst hid
                right; right; left
                refine ⟨by simp [statusOf, hl, hst], Or.inl ?_⟩
                simp [statusOf, hlook, hstat]
              · left
                unfold statusOf
                rw [lookup_saveProposal_other store p' id
                  (by rw [hkey, lookupProposal_key store id0 p hl]; exact hid)]
            · unfold approve_proposal
              rw [hl]
              dsimp only
              rw [if_pos hst]
              exact Or.inl rfl
    | reject id0 rb reason now =>
        simp only [applyOp]
        cases hl : lookupProposal store id0 with
        | none =>
            unfold reject_proposal
            rw [hl]
            exact Or.inl rfl
        | some p =>
            by_cases hst : p.status = "pending"
            · obtain ⟨p', heq, hlook, hstat, _, _, _, hkey, _⟩ :=
                reject_frame_spec store id0 rb reason now p hl hst
              have h2 : (reject_proposal store id0 rb reason now).2
                  = saveProposal store p' := by rw [heq]
              rw [h2]
              by_cases hid : id = id0
              · subst hid
                right; right; left
                refine ⟨by simp [statusOf, hl, hst], Or.inr (Or.inl ?_)⟩
                simp [statusOf, hlook, hstat]
              · left
                unfold statusOf
                rw [lookup_saveProposal_other store p' id
                  (by rw [hkey, lookupProposal_key store id0 p hl]; exact hid)]
            · unfold reject_proposal
              rw [hl]
              dsimp only
              rw [if_pos hst]
              exact Or.inl rfl
    | markExecuted id0 txid now =>
        simp only [applyOp]
        cases hl : lookupProposal store id0 with
        | none =>
            unfold mark_executed
            rw [hl]
            exact Or.inl rfl
        | some p =>
            by_cases hst : p.status = "approved"
            · obtain ⟨p', heq, hlook, hstat, _, _, hkey, _⟩ :=
                mark_executed_frame_spec store id0 txid now p hl hst
              have h2 : (mark_executed store id0 txid now).2
                  = saveProposal store p' := by rw [heq]
              rw [h2]
              by_cases hid : id = id0
              · subst hid
                right; right; right
                refine ⟨by simp [statusOf, hl, hst], ?_⟩
                simp [statusOf, hlook, hstat]
              · left
                unfold statusOf
                rw [lookup_saveProposal_other store p' id
                  (by rw [hkey, lookupProposal_key store id0 p hl]; exact hid)]
            · unfold mark_executed
              rw [hl]
              dsimp only
              rw [if_pos hst]
              exact Or.inl rfl
    | expire now mah =>
        simp only [applyOp]
        rw [expire_old_proposals_eq store now mah hn]
        dsimp only
        unfold statusOf
        rw [lookup_map_keyfix _ _ (expiredIn_key _ _) id]
        cases hl : lookupProposal store id with
        | none => exact Or.inl rfl
        | some q =>
            by_cases hc : (staleIds (load_funding_proposals store (some "pending") 100)
                (now - mah * 3600)).contains q.proposal_id = true
            · have hqpend : q.status = "pending" :=
                contains_staleIds_status store "pending" 100 _ hn q
                  (List.mem_of_find?_eq_some hl) hc
              right; right; left
              constructor
              · simp [hqpend]
              · right; right
                simp only [Option.map]
                unfold expiredIn
                rw [if_pos hc]
            · left
              simp only [Option.map]
              unfold expiredIn
              rw [if_neg hc]
    | generate mp newp =>
        have hfresh' : lookupProposal store newp.proposal_id = none := hfresh
        simp only [applyOp]
        unfold generate_proposal
        by_cases hcap : (load_funding_proposals store (some "pending") 50).length ≥ mp
        · rw [if_pos hcap]
          exact Or.inl rfl
        · rw [if_neg hcap]
          dsimp only
          by_cases hid : id = newp.proposal_id
          · subst hid
            right; left
            constructor
            · simp [statusOf, hfresh']
            · unfold statusOf
              rw [show lookupProposal
                  (saveProposal store { newp with status := "pending" }) newp.proposal_id
                  = some { newp with status := "pending" } from
                lookup_saveProposal_self store { newp with status := "pending" }]
              rfl
          · left
            unfold statusOf
            rw [lookup_saveProposal_other store { newp with status := "pending" } id hid]
  · intro store id a notes now h
    unfold approve_proposal
    rw [h]
  · intro store id a notes now p h hst
    unfold approve_proposal
    rw [h]
    dsimp only
    rw [if_pos hst]
  · intro store id rb reason now h
    unfold reject_proposal
    rw [h]
  · intro store id rb reason now p h hst
    unfold reject_proposal
    rw [h]
    dsimp only
    rw [if_pos hst]
  · intro store id txid now h
    unfold mark_executed
    rw [h]
  · intro store id txid now p h hst
    unfold mark_executed
    rw [h]
    dsimp only
    rw [if_pos hst]

/-- C6.  With a (truthy) shared secret configured and a parseable
timestamp header, `verify_webhook_signature` accepts exactly when the
timestamp is within the 300-second replay window and the supplied
signature equals the lowercase hex HMAC-SHA256 of `timestamp || rawBody`
under that secret; in particular a signature computed under any secret
whose HMAC digest differs is rejected, and any signature whose timestamp
is outside the window is rejected even if the HMAC matches. -/
theorem verify_webhook_signature_correct (env s : String) (hs : s ≠ "")
    (payload : List Nat) (sig ts : String) (now t : Int)
    (hts : int_of_string ts = some t) :
    (verify_webhook_signature env (some s) payload sig ts now = true ↔
      ((now - t).natAbs ≤ 300 ∧
        sig = bytesToHex (hmac_sha256 (utf8Bytes s) (utf8Bytes ts ++ payload))))
    ∧ (∀ s' : String,
        bytesToHex (hmac_sha256 (utf8Bytes s') (utf8Bytes ts ++ payload))
          ≠ bytesToHex (hmac_sha256 (utf8Bytes s) (utf8Bytes ts ++ payload)) →
        verify_webhook_signature env (some s) payload
          (bytesToHex (hmac_sha256 (utf8Bytes s') (utf8Bytes ts ++ payload))) ts now
          = false)
    ∧ ((now - t).natAbs > 300 →
        verify_webhook_signature env (some s) payload sig ts now = false) := by
  have hsb : (s == "") = false := beq_eq_false_iff_ne.mpr hs
  have hmain : ∀ sig' : String,
      verify_webhook_signature env (some s) payload sig' ts now =
      (if (now - t).natAbs > 300 then false
       else sig' == bytesToHex (hmac_sha256 (utf8Bytes s) (utf8Bytes ts ++ payload))) := by
    intro sig'
    unfold verify_webhook_signature
    dsimp only
    rw [hsb]
    simp only [Bool.false_eq_true, if_false]
    rw [hts]
  refine ⟨?_, ?_, ?_⟩
  · rw [hmain sig]
    by_cases hw : (now - t).natAbs > 300
    · rw [if_pos hw]
      simp
      omega
    · rw [if_neg hw]
      simp only [beq_iff_eq]
      exact ⟨fun h => ⟨by omega, h⟩, fun h => h.2⟩
  · intro s' hne
    rw [hmain _]
    by_cases hw : (now - t).natAbs > 300
    · rw [if_pos hw]
    · rw [if_neg hw]
      exact beq_eq_false_iff_ne.mpr hne
  · intro hw
    rw [hmain sig, if_pos hw]

/-- A minimal pending proposal fixture, created at epoch second `i`. -/
def pendingFixture (i : Nat) : FundingProposal :=
  { proposal_id := "p" ++ toString i
    created_at := (i : Int)
    status := "pending"
    requested_amount_sats := 1
    current_balance_sats := 0
    justification := "j"
    intended_use := "u"
    expected_roi_sats := 0
    risk_assessment := "medium"
    strategies_to_execute := []
    time_horizon_days := 30
    approved_at := none
    approved_by := none
    rejected_at := none
    rejected_by := none
    approval_notes := none
    executed_at := none
    execution_txid := none
    n8n_workflow_id := none }

/-- A store holding 101 stale pending proposals (dict invariant holds:
all ids distinct). -/
def overfullStore : ProposalStore := (List.range 101).map pendingFixture

/-- A stale pending proposal under id `w7a`. -/
def w7Pending : FundingProposal := { pendingFixture 0 with proposal_id := "w7a" }

/-- An approved proposal under id `w7b`. -/
def w7Approved : FundingProposal :=
  { pendingFixture 1 with proposal_id := "w7b", status := "approved" }

/-- The two-proposal store of the C7 witness. -/
def w7Store : ProposalStore := [w7Pending, w7Approved]

/-- A pending proposal under id `w5`. -/
def w5Pending : FundingProposal := { pendingFixture 2 with proposal_id := "w5" }

/-- A pending proposal under id `w10`. -/
def w10Pending : FundingProposal := { pendingFixture 3 with proposal_id := "w10" }

/-- An approved proposal under id `w10x`. -/
def w10Approved : FundingProposal :=
  { pendingFixture 4 with proposal_id := "w10x", status := "approved" }

/-- C7 counterexample.  A store of 101 stale pending proposals: because
`expire_old_proposals` examines only the 100 newest pending proposals
(the internal `load_funding_proposals` default `limit=100`), the first
run expires 100 of them and the second run — with no time advance and no
other mutation — expires one more, returning count 1, not 0. -/
theorem expire_second_run_expires_more :
    (expire_old_proposals overfullStore 1000000 1).1 = 100
    ∧ (expire_old_proposals (expire_old_proposals overfullStore 1000000 1).2
        1000000 1).1 = 1 := by
  decide

/-- C7 witness: on a two-proposal store (one stale pending, one approved)
the second run is a no-op with count 0, and the approved proposal is
untouched by the first run. -/
theorem expire_old_proposals_idempotent_witness :
    expire_old_proposals (expire_old_proposals w7Store 1000000 1).2 1000000 1
      = (0, (expire_old_proposals w7Store 1000000 1).2)
    ∧ lookupProposal (expire_old_proposals w7Store 1000000 1).2 "w7b"
      = some w7Approved :=
  ⟨expire_old_proposals_idempotent.1 w7Store 1000000 1 (by decide) (by decide),
   expire_old_proposals_idempotent.2 w7Store 1000000 1 "w7b" w7Approved
     (by decide) (by decide) (by decide)⟩

/-- C5 witness: approving a stored pending proposal is an allowed status
step; approving an absent id fails `NotFound`; marking a pending (not
approved) proposal executed fails `InvalidState` and leaves the store
unchanged. -/
theorem proposal_state_machine_witness :
    allowedStep (statusOf [w5Pending] "w5")
        (statusOf (applyOp (MgrOp.approve "w5" "alice" none 7) [w5Pending]) "w5")
    ∧ approve_proposal [] "ghost" "a" none 0
        = (Except.error (FundingError.notFound "ghost"), [])
    ∧ mark_executed [w5Pending] "w5" "tx" 0
        = (Except.error (FundingError.invalidState "w5" "pending"), [w5Pending]) :=
  ⟨proposal_state_machine.1 [w5Pending] (MgrOp.approve "w5" "alice" none 7) "w5"
      (by decide) trivial,
   proposal_state_machine.2.1 [] "ghost" "a" none 0 rfl,
   proposal_state_machine.2.2.2.2.2.2 [w5Pending] "w5" "tx" 0 w5Pending rfl
     (by decide)⟩

/-- C10 witness: the three lifecycle stamps at a concrete store. -/
theorem lifecycle_frame_witness :
    (∃ p', approve_proposal [w10Pending] "w10" "alice" (some "ok") 99
        = (Except.ok p', saveProposal [w10Pending] p') ∧ p'.status = "approved"
        ∧ p'.requested_amount_sats = w10Pending.requested_amount_sats)
    ∧ (∃ p', reject_proposal [w10Pending] "w10" "bob" "too risky" 99
        = (Except.ok p', saveProposal [w10Pending] p') ∧ p'.status = "rejected"
        ∧ p'.approval_notes = some "too risky")
    ∧ (∃ p', mark_executed [w10Approved] "w10x" "txid99" 99
        = (Except.ok p', saveProposal [w10Approved] p') ∧ p'.status = "executed"
        ∧ p'.execution_txid = some "txid99") := by
  refine ⟨?_, ?_, ?_⟩
  · obtain ⟨p', h1, _, h3, _, _, _, _, _, h9, _⟩ :=
      lifecycle_frame.1 [w10Pending] "w10" "alice" (some "ok") 99 w10Pending rfl rfl
    exact ⟨p', h1, h3, h9⟩
  · obtain ⟨p', h1, _, h3, _, _, h6, _⟩ :=
      lifecycle_frame.2.1 [w10Pending] "w10" "bob" "too risky" 99 w10Pending rfl rfl
    exact ⟨p', h1, h3, h6⟩
  · obtain ⟨p', h1, _, h3, _, h5, _⟩ :=
      lifecycle_frame.2.2 [w10Approved] "w10x" "txid99" 99 w10Approved rfl rfl
    exact ⟨p', h1, h3, h5⟩

/-- C6 witness: the correct HMAC over the same timestamp and body, 100
seconds old, is accepted. -/
theorem verify_webhook_signature_correct_witness :
    verify_webhook_signature "dev" (some "topsecret") []
      (bytesToHex (hmac_sha256 (utf8Bytes "topsecret") (utf8Bytes "1700000000" ++ [])))
      "1700000000" 1700000100 = true :=
  ((verify_webhook_signature_correct "dev" "topsecret" (by decide) []
      (bytesToHex (hmac_sha256 (utf8Bytes "topsecret") (utf8Bytes "1700000000" ++ [])))
      "1700000000" 1700000100 1700000000 (by decide)).1).mpr ⟨by decide, rfl⟩

end Falconer
